import Mathlib

/-!
# Builder Smart AI: the calculator widget and the chat panel

A shallow embedding of `src/components/Calculator.jsx` and of the event handlers of
`src/App.jsx`.  Every React state variable becomes a field of a state record and every
handler becomes a function from the state at the time of the event to the next state.
Timers started with `setTimeout` are kept in the state as pending callbacks together with
the values their closures captured.

JavaScript numbers are binary64 floats.  A finite value is written as the rational it
denotes; every arithmetic operation and `parseFloat` round the exact result to the nearest
float, ties to even, with overflow to an infinity and gradual underflow; `String(value)`
prints the shortest decimal that reads back as the value.
-/

namespace BuilderSmartAI

/-! ## Numbers -/

/-- A JavaScript number.  A finite value is given by the rational it denotes, `fin 0` being
`+0`; next to the finite values stand `-0`, the two infinities and `NaN`.  The operations
below return only values a binary64 float can hold. -/
inductive JSNum where
  | fin (q : ℚ)
  | negZero
  | posInf
  | negInf
  | nan
deriving DecidableEq

/-- The integer part of the base-2 logarithm of `n`, for `1 ≤ n ≤ fuel`. -/
def floorLog2Nat : Nat → Nat → Nat
  | 0, _ => 0
  | fuel + 1, n => if n < 2 then 0 else floorLog2Nat fuel (n / 2) + 1

/-- The integer part of the base-2 logarithm of `n / d`, for positive `n` and `d`. -/
def floorLog2 (n d : Nat) : Int :=
  if d ≤ n then (floorLog2Nat (n / d) (n / d) : Int)
  else -((floorLog2Nat ((d - 1) / n) ((d - 1) / n) + 1 : Nat) : Int)

/-- The integer nearest to `n / d`, the even one of the two when `n / d` lies half way. -/
def roundHalfEven (n d : Nat) : Nat :=
  if 2 * (n % d) < d then n / d
  else if d < 2 * (n % d) then n / d + 1
  else if (n / d) % 2 = 0 then n / d
  else n / d + 1

/-- The rational `c * base ^ e`. -/
def scaled (base c : Nat) (e : Int) : ℚ :=
  if 0 ≤ e then ((c * base ^ e.toNat : Nat) : ℚ)
  else (c : ℚ) / ((base ^ (-e).toNat : Nat) : ℚ)

/-- The significand `m` and the exponent `e` of the float `m * 2 ^ e` nearest to `n / d`, for
positive `n` and `d`: `e` is the exponent of the last of 53 bits, at least `-1074`, and `m`
is `n / d / 2 ^ e` rounded to the nearest integer, ties to even. -/
def nearestSignificand (n d : Nat) : Nat × Int :=
  let e : Int := max (floorLog2 n d - 52) (-1074)
  (if 0 ≤ e then roundHalfEven n (d * 2 ^ e.toNat) else roundHalfEven (n * 2 ^ (-e).toNat) d, e)

namespace JSNum

/-- The infinity of the given sign. -/
def signedInf (negative : Bool) : JSNum :=
  if negative then negInf else posInf

/-- The zero of the given sign. -/
def signedZero (negative : Bool) : JSNum :=
  if negative then negZero else fin 0

/-- The binary64 float nearest to the rational `q`, ties to the even significand: the
significand has 53 bits, the exponent of its last bit is at least `-1074`, a result of
`2 ^ 1024` or more is an infinity, and a result below the least subnormal is a zero of the
sign of `q`.  The rational `0` is `+0`. -/
def roundDouble (q : ℚ) : JSNum :=
  if q = 0 then fin 0
  else
    let me := nearestSignificand q.num.natAbs q.den
    if me.1 = 0 then signedZero (decide (q < 0))
    else if 0 ≤ me.2 ∧ 2 ^ 1024 ≤ me.1 * 2 ^ me.2.toNat then signedInf (decide (q < 0))
    else fin (if q < 0 then -(scaled 2 me.1 me.2) else scaled 2 me.1 me.2)

/-- Whether the value is `NaN`. -/
def isNaN : JSNum → Bool
  | nan => true
  | _ => false

/-- Whether the value is an infinity. -/
def isInf : JSNum → Bool
  | posInf => true
  | negInf => true
  | _ => false

/-- Whether the value is `+0` or `-0`. -/
def isZero : JSNum → Bool
  | fin q => decide (q = 0)
  | negZero => true
  | _ => false

/-- The sign bit of a value that is not `NaN`. -/
def isNegative : JSNum → Bool
  | fin q => decide (q < 0)
  | negZero => true
  | negInf => true
  | _ => false

/-- The rational a finite value denotes; `0` for the others. -/
def toRat : JSNum → ℚ
  | fin q => q
  | _ => 0

/-- Negation, `-x`. -/
def neg : JSNum → JSNum
  | fin q => if q = 0 then negZero else fin (-q)
  | negZero => fin 0
  | posInf => negInf
  | negInf => posInf
  | nan => nan

/-- Addition, `x + y`: the exact sum, rounded.  Infinities of opposite sign give `NaN`;
a sum of zeros is `-0` only when both are; an exact sum of zero is `+0`. -/
def add (x y : JSNum) : JSNum :=
  if x.isNaN || y.isNaN then nan
  else if x.isInf then (if y.isInf && (x.isNegative != y.isNegative) then nan else x)
  else if y.isInf then y
  else if x.isZero && y.isZero then signedZero (x.isNegative && y.isNegative)
  else roundDouble (x.toRat + y.toRat)

/-- Subtraction, `x - y`, which is `x + (-y)`. -/
def sub (x y : JSNum) : JSNum :=
  add x (neg y)

/-- Multiplication, `x * y`: the exact product, rounded.  An infinity times a zero is
`NaN`; the sign of a zero or infinite product is the product of the signs. -/
def mul (x y : JSNum) : JSNum :=
  if x.isNaN || y.isNaN then nan
  else if x.isInf || y.isInf then
    (if x.isZero || y.isZero then nan else signedInf (x.isNegative != y.isNegative))
  else if x.isZero || y.isZero then signedZero (x.isNegative != y.isNegative)
  else roundDouble (x.toRat * y.toRat)

/-- Division, `x / y`: the exact quotient, rounded.  A zero over a zero and an infinity over
an infinity are `NaN`; a non-zero value over a zero is an infinity. -/
def div (x y : JSNum) : JSNum :=
  if x.isNaN || y.isNaN then nan
  else if x.isInf then (if y.isInf then nan else signedInf (x.isNegative != y.isNegative))
  else if y.isInf then signedZero (x.isNegative != y.isNegative)
  else if y.isZero then
    (if x.isZero then nan else signedInf (x.isNegative != y.isNegative))
  else if x.isZero then signedZero (x.isNegative != y.isNegative)
  else roundDouble (x.toRat / y.toRat)

/-- Truthiness of a number: `+0`, `-0` and `NaN` are falsy. -/
def truthy : JSNum → Bool
  | fin q => decide (q ≠ 0)
  | negZero => false
  | nan => false
  | _ => true

/-- The comparison `x === y` of two numbers: `NaN` equals nothing, `+0` equals `-0`. -/
def strictEq (x y : JSNum) : Bool :=
  if x.isNaN || y.isNaN then false
  else if x.isInf || y.isInf then decide (x = y)
  else decide (x.toRat = y.toRat)

end JSNum

/-! ### Printing -/

/-- The decimal exponent of `n / d`, for positive `n` and `d`: the integer `p` with
`10 ^ (p - 1) ≤ n / d < 10 ^ p`. -/
def decimalExponent (n d : Nat) : Int :=
  if d ≤ n then ((Nat.toDigits 10 (n / d)).length : Int)
  else 1 - ((Nat.toDigits 10 ((d - 1) / n)).length : Int)

/-- Whether the decimal `c * 10 ^ (p - k)` is read back as `x`. -/
def readsBack (x : ℚ) (p : Int) (k c : Nat) : Bool :=
  decide (JSNum.roundDouble (scaled 10 c (p - k)) = JSNum.fin x)

/-- The significand of `k` digits for `x = n / d`, when there is one that reads back as `x`:
of the two integers around `x / 10 ^ (p - k)` the one that reads back, the nearer one when
both do, the even one when they are equally near. -/
def pickDigits (x : ℚ) (n d : Nat) (p : Int) (k : Nat) : Option Nat :=
  let num := if p - k < 0 then n * 10 ^ (k - p).toNat else n
  let den := if p - k < 0 then d else d * 10 ^ (p - k).toNat
  let lo := num / den
  let r := num % den
  if readsBack x p k lo then
    if readsBack x p k (lo + 1) then
      (if 2 * r < den then some lo
       else if den < 2 * r then some (lo + 1)
       else if lo % 2 = 0 then some lo else some (lo + 1))
    else some lo
  else if readsBack x p k (lo + 1) then some (lo + 1)
  else none

/-- The shortest significand that reads back as `x`, with its number of digits; the search
goes from `k` digits upwards and gives up when the fuel is spent. -/
def shortestDigits (x : ℚ) (n d : Nat) (p : Int) : Nat → Nat → Nat × Nat
  | 0, k => (n * 10 ^ (k - p).toNat / (d * 10 ^ (p - k).toNat), k)
  | fuel + 1, k =>
    match pickDigits x n d p k with
    | some c => (c, k)
    | none => shortestDigits x n d p fuel (k + 1)

/-- The text for the digits `ds` read with the decimal point after the first `p` of them:
plain digits, a decimal point inside, leading zeros after `0.`, or exponent notation when
`p` is above `21` or below `-5`. -/
def formatDecimal (ds : List Char) (p : Int) : String :=
  if (ds.length : Int) ≤ p ∧ p ≤ 21 then
    String.mk (ds ++ List.replicate (p - ds.length).toNat '0')
  else if 0 < p ∧ p ≤ 21 then
    String.mk (ds.take p.toNat ++ '.' :: ds.drop p.toNat)
  else if -6 < p ∧ p ≤ 0 then
    String.mk ('0' :: '.' :: List.replicate (-p).toNat '0' ++ ds)
  else
    let ex : List Char :=
      (if p - 1 < 0 then '-' else '+') :: Nat.toDigits 10 (p - 1).natAbs
    match ds with
    | [] => ""
    | [c] => String.mk (c :: 'e' :: ex)
    | c :: rest => String.mk (c :: '.' :: rest ++ 'e' :: ex)

/-- The text of the positive finite value `n / d`. -/
def positiveToString (n d : Nat) : String :=
  let p := decimalExponent n d
  let ck := shortestDigits ((n : ℚ) / (d : ℚ)) n d p 17 1
  if ck.1 = 10 ^ ck.2 then formatDecimal ['1'] (p + 1)
  else formatDecimal (Nat.toDigits 10 ck.1) p

/-- The conversion `String(value)`, that is `Number::toString` with radix 10: the shortest
decimal that reads back as the value, in plain or exponent notation. -/
def numToString : JSNum → String
  | JSNum.nan => "NaN"
  | JSNum.posInf => "Infinity"
  | JSNum.negInf => "-Infinity"
  | JSNum.negZero => "0"
  | JSNum.fin q =>
    if q = 0 then "0"
    else if q < 0 then "-" ++ positiveToString q.num.natAbs q.den
    else positiveToString q.num.natAbs q.den

/-! ### Reading -/

/-- White space and line terminators, the characters `parseFloat` and `trim` skip. -/
def isJsWhiteSpace (c : Char) : Bool :=
  c.toNat ∈ [0x09, 0x0A, 0x0B, 0x0C, 0x0D, 0x20, 0xA0, 0x1680, 0x2000, 0x2001, 0x2002,
    0x2003, 0x2004, 0x2005, 0x2006, 0x2007, 0x2008, 0x2009, 0x200A, 0x2028, 0x2029,
    0x202F, 0x205F, 0x3000, 0xFEFF]

/-- The value of a run of decimal digits. -/
def digitsValue (cs : List Char) : Nat :=
  cs.foldl (fun acc c => 10 * acc + (c.toNat - 48)) 0

/-- An optional leading sign: whether it is a minus, and the rest. -/
def stripSign : List Char → Bool × List Char
  | [] => (false, [])
  | c :: r => if c = '-' then (true, r) else if c = '+' then (false, r) else (false, c :: r)

/-- The exponent part `e±ddd` at the head of the rest, `0` when there is none. -/
def exponentPart : List Char → Int
  | [] => 0
  | c :: r =>
    if c = 'e' ∨ c = 'E' then
      let sr := stripSign r
      let ds := sr.2.takeWhile Char.isDigit
      if ds = [] then 0
      else if sr.1 then -((digitsValue ds : Nat) : Int) else ((digitsValue ds : Nat) : Int)
    else 0

/-- The function `parseFloat`: skip leading white space, then read the longest prefix that is
a decimal literal (sign, digits, fraction, exponent) or `Infinity`; `NaN` when there is
none.  The literal denotes the float nearest to its decimal value, and `-0` when it is a
zero with a minus sign. -/
def parseFloat (s : String) : JSNum :=
  let sr := stripSign (s.data.dropWhile isJsWhiteSpace)
  if "Infinity".data.isPrefixOf sr.2 then JSNum.signedInf sr.1
  else
    let ip := sr.2.takeWhile Char.isDigit
    let r1 := sr.2.dropWhile Char.isDigit
    let fp := match r1 with
      | [] => []
      | c :: r => if c = '.' then r.takeWhile Char.isDigit else []
    let r2 := match r1 with
      | [] => []
      | c :: r => if c = '.' then r.dropWhile Char.isDigit else c :: r
    if ip = [] ∧ fp = [] then JSNum.nan
    else
      let v := JSNum.roundDouble
        (scaled 10 (digitsValue (ip ++ fp)) (exponentPart r2 - (fp.length : Int)))
      if sr.1 then JSNum.neg v else v

/-! ## The calculator widget (`Calculator.jsx`) -/

/-- The five state variables of the `Calculator` component. -/
structure CalcState where
  display : String
  equation : String
  prevValue : Option JSNum
  operator : Option String
  waitingForOperand : Bool
deriving DecidableEq

/-- The state the `useState` calls start from. -/
def CalcState.fresh : CalcState :=
  { display := "0", equation := "", prevValue := none, operator := none,
    waitingForOperand := false }

/-- The handler `clearAll`. -/
def clearAll (_s : CalcState) : CalcState :=
  { display := "0", equation := "", prevValue := none, operator := none,
    waitingForOperand := false }

/-- The handler `clearDisplay`. -/
def clearDisplay (s : CalcState) : CalcState :=
  { s with display := "0", waitingForOperand := false }

/-- The handler `toggleSign`. -/
def toggleSign (s : CalcState) : CalcState :=
  let value := JSNum.mul (parseFloat s.display) (JSNum.fin (-1))
  { s with
    display := numToString value
    prevValue := if s.waitingForOperand then some value else s.prevValue }

/-- The handler `inputPercent`. -/
def inputPercent (s : CalcState) : CalcState :=
  let value := JSNum.div (parseFloat s.display) (JSNum.fin 100)
  { s with
    display := numToString value
    equation := s.equation ++ " " ++ numToString value
    waitingForOperand := true }

/-- The handler `inputDot`. -/
def inputDot (s : CalcState) : CalcState :=
  if s.waitingForOperand then
    { s with display := "0.", waitingForOperand := false }
  else if !(s.display.data.contains '.') then
    { s with display := s.display ++ "." }
  else s

/-- The handler `inputDigit`; the keypad passes the numbers `0` to `9`. -/
def inputDigit (digit : Nat) (s : CalcState) : CalcState :=
  if s.waitingForOperand then
    { s with display := Nat.repr digit, waitingForOperand := false }
  else
    { s with display := if s.display = "0" then Nat.repr digit else s.display ++ Nat.repr digit }

/-- The `switch (operator)` of `performOperation`. -/
def applyOperator (operator : String) (currentValue inputValue : JSNum) : JSNum :=
  if operator = "+" then JSNum.add currentValue inputValue
  else if operator = "-" then JSNum.sub currentValue inputValue
  else if operator = "×" then JSNum.mul currentValue inputValue
  else if operator = "÷" then JSNum.div currentValue inputValue
  else inputValue

/-- The handler `performOperation`. -/
def performOperation (nextOperator : String) (s : CalcState) : CalcState :=
  let inputValue := parseFloat s.display
  let s1 : CalcState :=
    match s.prevValue with
    | none =>
      { s with
        prevValue := some inputValue
        equation := numToString inputValue ++ " " ++ nextOperator }
    | some prevValue =>
      match s.operator with
      | none => s
      | some operator =>
        if operator = "" then s
        else
          let currentValue := if prevValue.truthy then prevValue else JSNum.fin 0
          let newValue := applyOperator operator currentValue inputValue
          { s with
            prevValue := some newValue
            display := numToString newValue
            equation :=
              if nextOperator = "=" then s.equation ++ " " ++ numToString inputValue ++ " ="
              else numToString newValue ++ " " ++ nextOperator }
  { s1 with
    waitingForOperand := true
    operator := if nextOperator = "=" then none else some nextOperator }

/-! ### Key sequences -/

/-- Pressing the digit keys `ds` one after the other, first key first. -/
def enterDigits (ds : List Nat) (s : CalcState) : CalcState :=
  ds.foldl (fun st d => inputDigit d st) s

/-- The decimal digits of `n`, most significant first; `0` is the single digit `0`. -/
def decimalDigits (n : Nat) : List Nat :=
  (Nat.toDigits 10 n).map (fun c => c.toNat - 48)

/-- Entering the non-negative integer `n` digit by digit. -/
def enterNat (n : Nat) (s : CalcState) : CalcState :=
  enterDigits (decimalDigits n) s

/-- Entering the integer `z`: the digits of its absolute value, then the `±` key when it is
negative. -/
def enterInt (z : Int) (s : CalcState) : CalcState :=
  if z < 0 then toggleSign (enterNat z.natAbs s) else enterNat z.natAbs s

/-- The three operator keys whose result on integers is an integer. -/
inductive ArithOp where
  | plus
  | minus
  | times
deriving DecidableEq

/-- The string the key passes to `performOperation`. -/
def ArithOp.symbol : ArithOp → String
  | plus => "+"
  | minus => "-"
  | times => "×"

/-- The arithmetic meaning of the key on exact integers. -/
def ArithOp.eval : ArithOp → Int → Int → Int
  | plus, a, b => a + b
  | minus, a, b => a - b
  | times, a, b => a * b

/-- The keys that edit the current entry: a digit `0` to `9`, the dot, `C` and `AC`. -/
inductive EntryKey where
  | digit (d : Fin 10)
  | dot
  | clearEntry
  | clearAllKey
deriving DecidableEq

/-- The handler behind an entry key. -/
def EntryKey.press : EntryKey → CalcState → CalcState
  | digit d, s => inputDigit d.val s
  | dot, s => inputDot s
  | clearEntry, s => clearDisplay s
  | clearAllKey, s => clearAll s

/-- Pressing the entry keys `ks` one after the other, first key first. -/
def pressAll (ks : List EntryKey) (s : CalcState) : CalcState :=
  ks.foldl (fun st k => k.press st) s

/-- The number of decimal points in a string. -/
def dotCount (s : String) : Nat :=
  s.data.count '.'

/-- The state after entering `a`, pressing `op1`, entering `b` and pressing `op2`. -/
def afterSecondOperator (a b : Int) (op1 op2 : ArithOp) : CalcState :=
  performOperation op2.symbol
    (enterInt b (performOperation op1.symbol (enterInt a CalcState.fresh)))

/-! ## The chat panel (`App.jsx`) -/

/-- Who wrote a message. -/
inductive Role where
  | user
  | assistant
deriving DecidableEq

/-- A chat message. -/
structure Message where
  role : Role
  content : String
deriving DecidableEq

/-- The constant `initialMessages`. -/
def initialMessages : List Message :=
  [{ role := Role.assistant, content := "# Welcome to Builder Smart AI\n\nI'm your AI development assistant, here to help you build, deploy, and ship your projects. How can I assist you today?\n\n- **Build**: Get help with code, architecture, and best practices\n- **Deploy**: Guidance on deployment strategies and platforms\n- **Ship**: Optimize your workflow and deliver faster\n\nJust tell me what you're working on, and I'll provide tailored assistance for your project." }]

/-- The method `String.prototype.trim`: white space and line terminators are removed from
both ends. -/
def jsTrim (s : String) : String :=
  String.mk ((s.data.dropWhile isJsWhiteSpace).reverse.dropWhile isJsWhiteSpace).reverse

/-- Whether `needle` occurs in the character list as a contiguous block. -/
def includesChars (needle : List Char) : List Char → Bool
  | [] => needle.isPrefixOf []
  | c :: cs => needle.isPrefixOf (c :: cs) || includesChars needle cs

/-- The method `String.prototype.includes`. -/
def includes (s searchString : String) : Bool :=
  includesChars searchString.data s.data

/-- Lower-casing of the ASCII letters.  `String.prototype.toLowerCase` agrees with it on
every ASCII text; the handlers below take the lower-casing function as an argument, so
what is proved of them holds for the full Unicode mapping as well. -/
def asciiLowerCase (s : String) : String :=
  String.mk (s.data.map Char.toLower)

/-- The greeting returned for `hello` and `hi`. -/
def helloResponse : String :=
  "Hello! I'm Builder Smart AI, your development assistant. I can help you build, deploy, and ship your projects. What are you working on today?"

/-- The reply returned for `build`. -/
def buildResponse : String :=
  "# Building with Builder Smart AI\n\nI can help you build your application by providing:\n\n- Code examples and solutions\n- Architecture recommendations\n- Best practices and patterns\n- Debugging assistance\n- Performance optimization tips\n\nWhat specific part of your build process do you need help with?"

/-- The reply returned for `deploy`. -/
def deployResponse : String :=
  "# Deployment Strategies\n\nI can help you deploy your application with guidance on:\n\n- Cloud platforms (AWS, Azure, GCP)\n- Containerization with Docker\n- CI/CD pipeline setup\n- Serverless architectures\n- Environment configuration\n\n```bash\n# Example Docker deployment\ndocker build -t myapp .\ndocker run -p 3000:3000 myapp\n```\n\nWhat platform are you planning to deploy to?"

/-- The reply returned for `ship`. -/
def shipResponse : String :=
  "# Shipping Your Project\n\nI can help you ship your product faster with:\n\n- Release management strategies\n- Feature flagging techniques\n- A/B testing implementation\n- Monitoring and analytics setup\n- User feedback collection\n\nWhat's your current shipping timeline and what challenges are you facing?"

/-- The reply returned for `react`. -/
def reactResponse : String :=
  "# React Component Example\n\nHere's a simple React functional component:\n\n```jsx\nimport React, \x7b useState \x7d from 'react';\n\nfunction Counter() \x7b\n  const [count, setCount] = useState(0);\n\n  return (\n    <div className=\"counter\">\n      <h2>Count: \x7bcount\x7d</h2>\n      <button onClick=\x7b() => setCount(count + 1)\x7d>Increment</button>\n      <button onClick=\x7b() => setCount(count - 1)\x7d>Decrement</button>\n    </div>\n  );\n\x7d\n\nexport default Counter;\n```\n\nThis component maintains a count state and provides buttons to increment and decrement it. Would you like me to explain how to integrate this into your project?"

/-- The reply returned for `tailwind`. -/
def tailwindResponse : String :=
  "# Tailwind CSS Basics\n\nTailwind CSS is a utility-first CSS framework. Here's how to create a card component:\n\n```jsx\nfunction Card(\x7b title, description \x7d) \x7b\n  return (\n    <div className=\"max-w-sm rounded overflow-hidden shadow-lg bg-white\">\n      <div className=\"px-6 py-4\">\n        <div className=\"font-bold text-xl mb-2\">\x7btitle\x7d</div>\n        <p className=\"text-gray-700 text-base\">\x7bdescription\x7d</p>\n      </div>\n      <div className=\"px-6 pt-4 pb-2\">\n        <span className=\"inline-block bg-gray-200 rounded-full px-3 py-1 text-sm font-semibold text-gray-700 mr-2 mb-2\">#tailwind</span>\n        <span className=\"inline-block bg-gray-200 rounded-full px-3 py-1 text-sm font-semibold text-gray-700 mr-2 mb-2\">#css</span>\n      </div>\n    </div>\n  );\n\x7d\n```\n\nThis creates a clean card with a title, description, and tags using Tailwind's utility classes. Would you like me to help you implement this in your project?"

/-- The reply returned for `calculator`. -/
def calculatorResponse : String :=
  "I've opened the calculator tool for you. This is just one example of the tools I can provide to help with your development process. For your real projects, I can assist with code generation, debugging, architecture design, and more. What kind of project are you looking to build, deploy, or ship?"

/-- The reply returned when no keyword matches. -/
def fallbackResponse : String :=
  "I'm here to help you build, deploy, and ship your projects. Could you provide more details about what you're working on? I can assist with code examples, architecture recommendations, deployment strategies, or optimization techniques based on your specific needs."

/-- The function `generateMockResponse`.  It returns the reply together with the value of
`showCalculator` it leaves behind: the `calculator` branch calls `setShowCalculator(true)`,
the other branches do not touch it. -/
def generateMockResponse (toLowerCase : String → String) (query : String)
    (showCalculator : Bool) : String × Bool :=
  if includes (toLowerCase query) "hello" || includes (toLowerCase query) "hi" then
    (helloResponse, showCalculator)
  else if includes (toLowerCase query) "build" then (buildResponse, showCalculator)
  else if includes (toLowerCase query) "deploy" then (deployResponse, showCalculator)
  else if includes (toLowerCase query) "ship" then (shipResponse, showCalculator)
  else if includes (toLowerCase query) "react" then (reactResponse, showCalculator)
  else if includes (toLowerCase query) "tailwind" then (tailwindResponse, showCalculator)
  else if includes (toLowerCase query) "calculator" then (calculatorResponse, true)
  else (fallbackResponse, showCalculator)

/-- The object `copiedSnippets`: block ids with their flag. -/
abbrev Snippets := List (String × Bool)

/-- The object `{ ...snippets, [id]: value }`. -/
def Snippets.assign (snippets : Snippets) (id : String) (value : Bool) : Snippets :=
  if snippets.any (fun kv => kv.1 = id) then
    snippets.map (fun kv => if kv.1 = id then (id, value) else kv)
  else snippets ++ [(id, value)]

/-- The test `copiedSnippets[id] ? … : …` of the view: a missing key is falsy. -/
def Snippets.marked (snippets : Snippets) (id : String) : Bool :=
  match snippets.lookup id with
  | some value => value
  | none => false

/-- A callback handed to `setTimeout`, with the values its closure captured. -/
inductive Timer where
  /-- The callback of `handleSubmit`; it captured `input`. -/
  | reply (input : String)
  /-- The callback of `handleCopyCode`; it captured `copiedSnippets` and `id`. -/
  | uncopy (copiedSnippets : Snippets) (id : String)
deriving DecidableEq

/-- The state variables of the `App` component, the system clipboard, and the timers that
have been started and have not fired yet, oldest first. -/
structure AppState where
  messages : List Message
  input : String
  isTyping : Bool
  darkMode : Bool
  copiedSnippets : Snippets
  showCalculator : Bool
  clipboard : Option String
  timers : List Timer
deriving DecidableEq

/-- The state the `useState` calls start from. -/
def AppState.initial : AppState :=
  { messages := initialMessages, input := "", isTyping := false, darkMode := false,
    copiedSnippets := [], showCalculator := false, clipboard := none, timers := [] }

/-- The handler `handleSubmit`. -/
def handleSubmit (s : AppState) : AppState :=
  if jsTrim s.input = "" then s
  else
    { s with
      messages := s.messages ++ [{ role := Role.user, content := s.input }]
      input := ""
      isTyping := true
      timers := s.timers ++ [Timer.reply s.input] }

/-- The handler `handleCopyCode`. -/
def handleCopyCode (code id : String) (s : AppState) : AppState :=
  { s with
    clipboard := some code
    copiedSnippets := s.copiedSnippets.assign id true
    timers := s.timers ++ [Timer.uncopy s.copiedSnippets id] }

/-- What a timer callback does to the state it runs in. -/
def Timer.run (toLowerCase : String → String) : Timer → AppState → AppState
  | Timer.reply input, s =>
    { s with
      messages := s.messages ++
        [{ role := Role.assistant
           content := (generateMockResponse toLowerCase input s.showCalculator).1 }]
      isTyping := false
      showCalculator := (generateMockResponse toLowerCase input s.showCalculator).2 }
  | Timer.uncopy copiedSnippets id, s =>
    { s with copiedSnippets := copiedSnippets.assign id false }

/-- The pending timer at position `i` fires: it leaves the pending list and its callback
runs. -/
def fireTimer (toLowerCase : String → String) (i : Nat) (s : AppState) : AppState :=
  match s.timers.get? i with
  | none => s
  | some t => t.run toLowerCase { s with timers := s.timers.eraseIdx i }

/-- The file a click on the download button saves. -/
structure Download where
  filename : String
  mimeType : String
  content : String
deriving DecidableEq

/-- The handler `handleDownloadCode`. -/
def handleDownloadCode (code language : String) : Download :=
  { filename := "code-snippet." ++
      (if language = "jsx" then "jsx" else if language = "javascript" then "js" else language)
    mimeType := "text/plain"
    content := code }

/-- The handler `toggleCalculator`. -/
def toggleCalculator (s : AppState) : AppState :=
  { s with showCalculator := !s.showCalculator }

/-! ### Every key of the calculator -/

/-- A call of one of the seven handlers of the calculator: a digit `0` to `9`, the dot,
`toggleSign`, `inputPercent`, `performOperation` with its argument, `clearAll` and
`clearDisplay`. -/
inductive CalcKey where
  | digit (d : Fin 10)
  | dot
  | sign
  | percent
  | operate (nextOperator : String)
  | allClear
  | entryClear
deriving DecidableEq

/-- The handler behind a key. -/
def CalcKey.press : CalcKey → CalcState → CalcState
  | digit d, s => inputDigit d.val s
  | dot, s => inputDot s
  | sign, s => toggleSign s
  | percent, s => inputPercent s
  | operate nextOperator, s => performOperation nextOperator s
  | allClear, s => clearAll s
  | entryClear, s => clearDisplay s

/-- Pressing the keys `ks` one after the other, first key first. -/
def pressKeys (ks : List CalcKey) (s : CalcState) : CalcState :=
  ks.foldl (fun st k => k.press st) s

/-! ## Decimal notation -/

theorem toDigitsCore_append (n : Nat) :
    ∀ fuel ds, n < fuel → Nat.toDigitsCore 10 fuel n ds = Nat.toDigits 10 n ++ ds := by
  induction n using Nat.strong_induction_on with
  | _ n ih =>
    intro fuel ds hf
    obtain ⟨f, rfl⟩ : ∃ f, fuel = f + 1 := ⟨fuel - 1, by omega⟩
    unfold Nat.toDigits
    rw [Nat.toDigitsCore, Nat.toDigitsCore]
    by_cases h : n / 10 = 0
    · simp [h]
    · have hlt : n / 10 < n := by omega
      simp only [h, if_false]
      rw [ih (n / 10) hlt f _ (by omega), ih (n / 10) hlt n _ hlt]
      simp

theorem toDigits_lt_ten (n : Nat) (h : n < 10) : Nat.toDigits 10 n = [Nat.digitChar n] := by
  unfold Nat.toDigits
  rw [Nat.toDigitsCore]
  have h0 : n / 10 = 0 := by omega
  have h1 : n % 10 = n := by omega
  simp [h0, h1]

theorem toDigits_ge_ten (n : Nat) (h : 10 ≤ n) :
    Nat.toDigits 10 n = Nat.toDigits 10 (n / 10) ++ [Nat.digitChar (n % 10)] := by
  have h0 : n / 10 ≠ 0 := by omega
  conv_lhs => unfold Nat.toDigits
  rw [Nat.toDigitsCore]
  simp only [h0, if_false]
  exact toDigitsCore_append (n / 10) n _ (by omega)

theorem digitChar_isDigit (d : Nat) (h : d < 10) : (Nat.digitChar d).isDigit = true := by
  interval_cases d <;> decide

theorem digitChar_toNat (d : Nat) (h : d < 10) : (Nat.digitChar d).toNat - 48 = d := by
  interval_cases d <;> decide

theorem toDigits_ne_nil (n : Nat) : Nat.toDigits 10 n ≠ [] := by
  by_cases h : n < 10
  · simp [toDigits_lt_ten n h]
  · simp [toDigits_ge_ten n (by omega)]

theorem toDigits_isDigit (n : Nat) : ∀ c ∈ Nat.toDigits 10 n, c.isDigit = true := by
  induction n using Nat.strong_induction_on with
  | _ n ih =>
    intro c hc
    by_cases h : n < 10
    · rw [toDigits_lt_ten n h] at hc
      simp only [List.mem_singleton] at hc
      subst hc
      exact digitChar_isDigit n h
    · rw [toDigits_ge_ten n (by omega), List.mem_append] at hc
      rcases hc with hc | hc
      · exact ih (n / 10) (by omega) c hc
      · simp only [List.mem_singleton] at hc
        subst hc
        exact digitChar_isDigit _ (Nat.mod_lt _ (by decide))

theorem digitsValue_append (cs : List Char) (c : Char) :
    digitsValue (cs ++ [c]) = 10 * digitsValue cs + (c.toNat - 48) := by
  simp [digitsValue, List.foldl_append]

theorem digitsValue_toDigits (n : Nat) : digitsValue (Nat.toDigits 10 n) = n := by
  induction n using Nat.strong_induction_on with
  | _ n ih =>
    by_cases h : n < 10
    · rw [toDigits_lt_ten n h]
      simp [digitsValue, digitChar_toNat n h]
    · rw [toDigits_ge_ten n (by omega), digitsValue_append, ih (n / 10) (by omega),
        digitChar_toNat _ (Nat.mod_lt _ (by decide))]
      omega


theorem isDigit_toNat (c : Char) (h : c.isDigit = true) : 48 ≤ c.toNat ∧ c.toNat ≤ 57 := by
  simp only [Char.isDigit, Bool.and_eq_true, decide_eq_true_eq] at h
  exact ⟨h.1, h.2⟩

theorem isDigit_not_special (c : Char) (h : c.isDigit = true) :
    isJsWhiteSpace c = false ∧ c ≠ '-' ∧ c ≠ '+' ∧ c ≠ 'I' := by
  have hb := isDigit_toNat c h
  refine ⟨?_, ?_, ?_, ?_⟩
  · simp only [isJsWhiteSpace, decide_eq_false_iff_not, List.mem_cons, List.mem_singleton,
      List.mem_nil_iff, not_or, not_false_eq_true, and_true]
    omega
  · rintro rfl; revert h; decide
  · rintro rfl; revert h; decide
  · rintro rfl; revert h; decide

theorem natRepr_append (v d : Nat) (hv : 0 < v) (hd : d < 10) :
    Nat.repr (10 * v + d) = Nat.repr v ++ Nat.repr d := by
  have h1 : Nat.toDigits 10 (10 * v + d) = Nat.toDigits 10 v ++ [Nat.digitChar d] := by
    rw [toDigits_ge_ten _ (by omega)]
    have e1 : (10 * v + d) / 10 = v := by omega
    have e2 : (10 * v + d) % 10 = d := by omega
    rw [e1, e2]
  have h2 : Nat.toDigits 10 d = [Nat.digitChar d] := toDigits_lt_ten d hd
  show String.mk (Nat.toDigits 10 (10 * v + d))
    = String.mk (Nat.toDigits 10 v) ++ String.mk (Nat.toDigits 10 d)
  rw [h1, h2]
  rfl

theorem natRepr_eq_zero (n : Nat) : Nat.repr n = "0" ↔ n = 0 := by
  constructor
  · intro h
    have h1 : Nat.toDigits 10 n = ['0'] := congrArg String.data h
    have h2 := digitsValue_toDigits n
    rw [h1] at h2
    exact h2.symm.trans (by decide)
  · rintro rfl
    rfl

/-! ## Rounding to a float -/

theorem floorLog2Nat_spec : ∀ (fuel n : Nat), 1 ≤ n → n ≤ fuel →
    2 ^ floorLog2Nat fuel n ≤ n ∧ n < 2 ^ (floorLog2Nat fuel n + 1) := by
  intro fuel
  induction fuel with
  | zero => intro n h1 h2; omega
  | succ f ih =>
    intro n h1 h2
    unfold floorLog2Nat
    by_cases h : n < 2
    · simp only [h, if_true]
      omega
    · simp only [h, if_false]
      obtain ⟨ha, hb⟩ := ih (n / 2) (by omega) (by omega)
      rw [pow_succ] at hb ⊢
      rw [pow_succ]
      constructor <;> omega

theorem roundHalfEven_one (n : Nat) : roundHalfEven n 1 = n := by
  simp [roundHalfEven, Nat.mod_one]

theorem roundHalfEven_ge (n d : Nat) : n / d ≤ roundHalfEven n d := by
  unfold roundHalfEven
  split_ifs <;> omega

theorem floorLog2_one (v : Nat) (h : 1 ≤ v) :
    floorLog2 v 1 = (floorLog2Nat v v : Int) := by
  simp [floorLog2, h, Nat.div_one]

/-- Below `2 ^ 53` the significand is the integer itself, shifted to 53 bits. -/
theorem nearestSignificand_small (v : Nat) (h1 : 1 ≤ v) (h2 : v < 2 ^ 53) :
    ∃ j : Nat, nearestSignificand v 1 = (v * 2 ^ j, -(j : Int)) := by
  obtain ⟨ha, _⟩ := floorLog2Nat_spec v v h1 (Nat.le_refl v)
  have hL : floorLog2Nat v v ≤ 52 := by
    by_contra hc
    have : 2 ^ 53 ≤ 2 ^ floorLog2Nat v v := Nat.pow_le_pow_right (by decide) (by omega)
    omega
  refine ⟨52 - floorLog2Nat v v, ?_⟩
  unfold nearestSignificand
  rw [floorLog2_one v h1]
  have he : max ((floorLog2Nat v v : Int) - 52) (-1074)
      = -((52 - floorLog2Nat v v : Nat) : Int) := by omega
  simp only [he]
  by_cases h0 : floorLog2Nat v v = 52
  · simp [h0, roundHalfEven_one]
  · have hneg : ¬ (0 ≤ -((52 - floorLog2Nat v v : Nat) : Int)) := by omega
    simp only [hneg, if_false, neg_neg, Int.toNat_ofNat, roundHalfEven_one]

/-- From `2 ^ 53` on the exponent is positive and the significand has 53 bits. -/
theorem nearestSignificand_big (v : Nat) (h : 2 ^ 53 ≤ v) :
    1 ≤ (nearestSignificand v 1).2 ∧
      2 ^ 52 ≤ (nearestSignificand v 1).1 := by
  have h1 : 1 ≤ v := le_trans (by decide) h
  obtain ⟨ha, hb⟩ := floorLog2Nat_spec v v h1 (Nat.le_refl v)
  have hL : 53 ≤ floorLog2Nat v v := by
    by_contra hc
    have : 2 ^ (floorLog2Nat v v + 1) ≤ 2 ^ 53 := Nat.pow_le_pow_right (by decide) (by omega)
    omega
  unfold nearestSignificand
  rw [floorLog2_one v h1]
  have he : max ((floorLog2Nat v v : Int) - 52) (-1074)
      = ((floorLog2Nat v v - 52 : Nat) : Int) := by omega
  simp only [he]
  refine ⟨by omega, ?_⟩
  have hpos : (0 : Int) ≤ ((floorLog2Nat v v - 52 : Nat) : Int) := by omega
  simp only [hpos, if_true, Int.toNat_ofNat, Nat.one_mul]
  refine le_trans ?_ (roundHalfEven_ge _ _)
  rw [Nat.le_div_iff_mul_le (Nat.pos_pow_of_pos _ (by decide))]
  calc 2 ^ 52 * 2 ^ (floorLog2Nat v v - 52) = 2 ^ (52 + (floorLog2Nat v v - 52)) := by
        rw [pow_add]
    _ = 2 ^ floorLog2Nat v v := by congr 1; omega
    _ ≤ v := ha

theorem scaled_neg_exponent (c j : Nat) : scaled 2 (c * 2 ^ j) (-(j : Int)) = (c : ℚ) := by
  unfold scaled
  by_cases hj : j = 0
  · subst hj
    simp
  · have : ¬ (0 ≤ -(j : Int)) := by omega
    simp only [this, if_false, neg_neg, Int.toNat_ofNat]
    push_cast
    field_simp

/-- A natural number below `2 ^ 53` is a float. -/
theorem roundDouble_natCast (v : Nat) (h : v < 2 ^ 53) :
    JSNum.roundDouble (v : ℚ) = JSNum.fin (v : ℚ) := by
  by_cases h0 : v = 0
  · subst h0
    simp [JSNum.roundDouble]
  · have hq : (v : ℚ) ≠ 0 := by exact_mod_cast h0
    have hpos : ¬ ((v : ℚ) < 0) := by
      have : (0 : ℚ) ≤ (v : ℚ) := Nat.cast_nonneg v
      linarith
    obtain ⟨j, hj⟩ := nearestSignificand_small v (by omega) h
    unfold JSNum.roundDouble
    simp only [hq, if_false, Rat.num_natCast, Int.natAbs_ofNat, Rat.den_natCast, hj, hpos]
    have hm : v * 2 ^ j ≠ 0 := Nat.mul_ne_zero h0 (by positivity)
    have hneg : ¬ ((0 : Int) ≤ -(j : Int) ∧ 2 ^ 1024 ≤ v * 2 ^ j * 2 ^ (-(j : Int)).toNat) := by
      rintro ⟨hj0, hbig⟩
      have : j = 0 := by omega
      subst this
      simp only [pow_zero, Nat.mul_one, neg_zero, Int.toNat_zero, CharP.cast_eq_zero] at hbig
      exact absurd (lt_of_lt_of_le (lt_of_lt_of_le h
        (Nat.pow_le_pow_right (by decide) (by decide))) hbig) (lt_irrefl _)
    simp only [hm, if_false, hneg, scaled_neg_exponent]

/-- The negative of a natural number below `2 ^ 53` is a float. -/
theorem roundDouble_neg_natCast (v : Nat) (h1 : 1 ≤ v) (h : v < 2 ^ 53) :
    JSNum.roundDouble (-(v : ℚ)) = JSNum.fin (-(v : ℚ)) := by
  have hv : (0 : ℚ) < (v : ℚ) := by exact_mod_cast h1
  have hq : -(v : ℚ) ≠ 0 := by linarith
  have hlt : -(v : ℚ) < 0 := by linarith
  obtain ⟨j, hj⟩ := nearestSignificand_small v h1 h
  have hnum : (-(v : ℚ)).num.natAbs = v := by
    rw [Rat.neg_num, Rat.num_natCast]
    simp
  have hden : (-(v : ℚ)).den = 1 := by
    rw [Rat.neg_den, Rat.den_natCast]
  unfold JSNum.roundDouble
  simp only [hq, if_false, hnum, hden, hj, hlt]
  have hm : v * 2 ^ j ≠ 0 := Nat.mul_ne_zero (by omega) (by positivity)
  have hneg : ¬ ((0 : Int) ≤ -(j : Int) ∧ 2 ^ 1024 ≤ v * 2 ^ j * 2 ^ (-(j : Int)).toNat) := by
    rintro ⟨hj0, hbig⟩
    have : j = 0 := by omega
    subst this
    simp only [pow_zero, Nat.mul_one, neg_zero, Int.toNat_zero, CharP.cast_eq_zero] at hbig
    exact absurd (lt_of_lt_of_le (lt_of_lt_of_le h
      (Nat.pow_le_pow_right (by decide) (by decide))) hbig) (lt_irrefl _)
  simp only [hm, if_false, hneg, scaled_neg_exponent, if_true]

/-- An integer of absolute value below `2 ^ 53` is a float. -/
theorem roundDouble_intCast (z : Int) (h : z.natAbs < 2 ^ 53) :
    JSNum.roundDouble (z : ℚ) = JSNum.fin (z : ℚ) := by
  cases z with
  | ofNat m =>
    have := roundDouble_natCast m (by simpa using h)
    simpa using this
  | negSucc m =>
    have := roundDouble_neg_natCast (m + 1) (by omega) (by simpa using h)
    rw [Int.negSucc_eq]
    push_cast at this ⊢
    exact this

/-- A natural number from `2 ^ 53` on is not read as a natural number below `2 ^ 53`. -/
theorem roundDouble_natCast_big (v z : Nat) (h : 2 ^ 53 ≤ v) (hz : z < 2 ^ 53) :
    JSNum.roundDouble (v : ℚ) ≠ JSNum.fin (z : ℚ) := by
  have h0 : v ≠ 0 := by
    intro h0
    subst h0
    simp at h
  have hq : (v : ℚ) ≠ 0 := by exact_mod_cast h0
  have hpos : ¬ ((v : ℚ) < 0) := by
    have : (0 : ℚ) ≤ (v : ℚ) := Nat.cast_nonneg v
    linarith
  obtain ⟨he, hm⟩ := nearestSignificand_big v h
  have hm0 : (nearestSignificand v 1).1 ≠ 0 := by
    intro hc
    rw [hc] at hm
    simp at hm
  unfold JSNum.roundDouble
  simp only [hq, if_false, Rat.num_natCast, Int.natAbs_ofNat, Rat.den_natCast, hm0, hpos]
  split_ifs with hbig
  · simp [JSNum.signedInf]
  · intro hc
    have hc2 : scaled 2 (nearestSignificand v 1).1 (nearestSignificand v 1).2 = (z : ℚ) :=
      JSNum.fin.inj hc
    have he0 : (0 : Int) ≤ (nearestSignificand v 1).2 := by omega
    unfold scaled at hc2
    simp only [he0, if_true] at hc2
    have hc3 : (nearestSignificand v 1).1 * 2 ^ (nearestSignificand v 1).2.toNat = z := by
      exact_mod_cast hc2
    have hpow : 2 ≤ 2 ^ (nearestSignificand v 1).2.toNat := by
      have : 1 ≤ (nearestSignificand v 1).2.toNat := by omega
      calc 2 = 2 ^ 1 := by norm_num
        _ ≤ 2 ^ (nearestSignificand v 1).2.toNat := Nat.pow_le_pow_right (by decide) this
    have : 2 ^ 52 * 2 ≤ (nearestSignificand v 1).1 * 2 ^ (nearestSignificand v 1).2.toNat :=
      Nat.mul_le_mul hm hpow
    have h53 : (2 : Nat) ^ 52 * 2 = 2 ^ 53 := by norm_num
    omega

/-- Reading a natural number back as a positive natural number below `2 ^ 53` means being
that number. -/
theorem roundDouble_natCast_inj (v z : Nat) (hz : z < 2 ^ 53)
    (h : JSNum.roundDouble (v : ℚ) = JSNum.fin (z : ℚ)) : v = z := by
  by_cases hv : v < 2 ^ 53
  · rw [roundDouble_natCast v hv] at h
    exact_mod_cast JSNum.fin.inj h
  · exact absurd h (roundDouble_natCast_big v z (by omega) hz)

/-! ## Printing an integer -/

theorem toDigits_mul_pow (c : Nat) (hc : 0 < c) (j : Nat) :
    Nat.toDigits 10 (c * 10 ^ j) = Nat.toDigits 10 c ++ List.replicate j '0' := by
  induction j with
  | zero => simp
  | succ j ih =>
    have hpos : 0 < c * 10 ^ j := Nat.mul_pos hc (by positivity)
    have e1 : c * 10 ^ (j + 1) = c * 10 ^ j * 10 := by rw [pow_succ, Nat.mul_assoc]
    rw [e1, toDigits_ge_ten _ (by omega), Nat.mul_div_cancel _ (by decide), Nat.mul_mod_left,
      ih, List.replicate_succ', List.append_assoc]
    rfl

theorem toDigits_length_le (e : Nat) : ∀ n : Nat, 0 < e → n < 10 ^ e →
    (Nat.toDigits 10 n).length ≤ e := by
  induction e with
  | zero => intro n h; omega
  | succ e ih =>
    intro n _ hn
    by_cases h : n < 10
    · rw [toDigits_lt_ten n h]
      simp
    · rw [toDigits_ge_ten n (by omega)]
      have he : 0 < e := by
        by_contra hc
        have : e = 0 := by omega
        subst this
        simp at hn
        omega
      have := ih (n / 10) he (by rw [pow_succ] at hn; omega)
      simp only [List.length_append, List.length_singleton]
      omega

theorem decimalExponent_one (z : Nat) (h : 1 ≤ z) :
    decimalExponent z 1 = ((Nat.toDigits 10 z).length : Int) := by
  simp [decimalExponent, h, Nat.div_one]

theorem pickDigits_readsBack (x : ℚ) (n d : Nat) (p : Int) (k c : Nat)
    (h : pickDigits x n d p k = some c) : readsBack x p k c = true := by
  unfold pickDigits at h
  simp only at h
  split_ifs at h with h1 h2 h3 h4 h5 h6 <;> simp only [Option.some.injEq] at h <;>
    (subst h; assumption)

theorem shortestDigits_found (x : ℚ) (n d : Nat) (p : Int) :
    ∀ (fuel k K : Nat), k ≤ K → K < k + fuel → (pickDigits x n d p K).isSome = true →
      ∃ c k2, shortestDigits x n d p fuel k = (c, k2) ∧ k2 ≤ K ∧
        pickDigits x n d p k2 = some c := by
  intro fuel
  induction fuel with
  | zero => intro k K h1 h2; omega
  | succ f ih =>
    intro k K h1 h2 hK
    unfold shortestDigits
    cases hp : pickDigits x n d p k with
    | some c => exact ⟨c, k, rfl, h1, hp⟩
    | none =>
      have hne : k ≠ K := by
        intro he
        subst he
        rw [hp] at hK
        simp at hK
      exact ih (k + 1) K (by omega) (by omega) hK

theorem scaled_nonneg_exponent (base c j : Nat) :
    scaled base c (j : Int) = ((c * base ^ j : Nat) : ℚ) := by
  have : (0 : Int) ≤ (j : Int) := Int.ofNat_nonneg j
  simp [scaled, this]

/-- A positive integer below `2 ^ 53` is printed as its decimal notation. -/
theorem positiveToString_nat (z : Nat) (h1 : 1 ≤ z) (h2 : z < 2 ^ 53) :
    positiveToString z 1 = Nat.repr z := by
  have hD1 : (Nat.toDigits 10 z).length ≤ 16 :=
    toDigits_length_le 16 z (by decide) (lt_of_lt_of_le h2 (by norm_num))
  have hD0 : 1 ≤ (Nat.toDigits 10 z).length := by
    have := toDigits_ne_nil z
    cases hl : Nat.toDigits 10 z with
    | nil => exact absurd hl this
    | cons a l => simp
  have hx : ((z : ℚ) / ((1 : Nat) : ℚ)) = (z : ℚ) := by simp
  -- the full number of digits reads back
  have hfull : (pickDigits (z : ℚ) z 1 ((Nat.toDigits 10 z).length : Int)
      (Nat.toDigits 10 z).length).isSome = true := by
    have hrb : readsBack (z : ℚ) ((Nat.toDigits 10 z).length : Int)
        (Nat.toDigits 10 z).length z = true := by
      simp only [readsBack, sub_self, decide_eq_true_eq]
      have := scaled_nonneg_exponent 10 z 0
      simp only [Int.ofNat_zero, Nat.cast_zero, pow_zero, Nat.mul_one] at this
      rw [this, roundDouble_natCast z h2]
    unfold pickDigits
    simp only [sub_self, lt_self_iff_false, if_false, Int.toNat_zero, pow_zero, Nat.mul_one,
      Nat.div_one, hrb, if_true]
    split_ifs <;> rfl
  obtain ⟨c, k, hs, hk, hpick⟩ := shortestDigits_found (z : ℚ) z 1
    ((Nat.toDigits 10 z).length : Int) 17 1 (Nat.toDigits 10 z).length hD0 (by omega) hfull
  have hrb := pickDigits_readsBack _ _ _ _ _ _ hpick
  -- the chosen significand times its power of ten is the number itself
  obtain ⟨j, hj⟩ : ∃ j : Nat, (Nat.toDigits 10 z).length = k + j :=
    ⟨(Nat.toDigits 10 z).length - k, by omega⟩
  have hexp : (((Nat.toDigits 10 z).length : Nat) : Int) - (k : Int) = (j : Int) := by
    rw [hj]
    push_cast
    ring
  have hval : c * 10 ^ j = z := by
    simp only [readsBack, decide_eq_true_eq, hexp, scaled_nonneg_exponent] at hrb
    exact roundDouble_natCast_inj _ z h2 hrb
  have hc : 0 < c := by
    rcases Nat.eq_zero_or_pos c with h0 | h0
    · rw [h0] at hval
      omega
    · exact h0
  have hdig : Nat.toDigits 10 z = Nat.toDigits 10 c ++ List.replicate j '0' := by
    rw [← hval]
    exact toDigits_mul_pow c hc j
  have hlen : (Nat.toDigits 10 c).length = k := by
    have := congrArg List.length hdig
    simp only [List.length_append, List.length_replicate] at this
    omega
  have hne : c ≠ 10 ^ k := by
    intro he
    have h10 := toDigits_mul_pow 1 (by decide) k
    rw [Nat.one_mul, ← he, toDigits_lt_ten 1 (by decide)] at h10
    have := congrArg List.length h10
    simp only [List.length_append, List.length_singleton, List.length_replicate] at this
    omega
  unfold positiveToString
  simp only [decimalExponent_one z h1, hx, hs, hne, if_false]
  unfold formatDecimal
  have hcond : ((Nat.toDigits 10 c).length : Int) ≤ ((Nat.toDigits 10 z).length : Int)
      ∧ ((Nat.toDigits 10 z).length : Int) ≤ 21 := by
    constructor <;> omega
  simp only [hcond, and_self, if_true]
  have hrep : (((Nat.toDigits 10 z).length : Int) - ((Nat.toDigits 10 c).length : Int)).toNat
      = j := by
    omega
  rw [hrep, ← hdig]
  rfl

/-- An integer of absolute value below `2 ^ 53` is printed as its decimal notation. -/
theorem numToString_int (z : Int) (h : z.natAbs < 2 ^ 53) :
    numToString (JSNum.fin (z : ℚ)) = Int.repr z := by
  cases z with
  | ofNat m =>
    by_cases h0 : m = 0
    · subst h0
      simp [numToString]
      rfl
    · have hq : ((Int.ofNat m : Int) : ℚ) ≠ 0 := by
        simp only [Int.ofNat_eq_coe, Int.cast_natCast, ne_eq, Nat.cast_eq_zero]
        exact h0
      have hpos : ¬ (((Int.ofNat m : Int) : ℚ) < 0) := by
        simp only [Int.ofNat_eq_coe, Int.cast_natCast, not_lt]
        exact Nat.cast_nonneg m
      simp only [numToString, hq, if_false, hpos]
      simp only [Int.ofNat_eq_coe, Int.cast_natCast, Rat.num_natCast, Int.natAbs_ofNat,
        Rat.den_natCast]
      exact positiveToString_nat m (by omega) (by simpa using h)
  | negSucc m =>
    have hlt : (((Int.negSucc m : Int)) : ℚ) < 0 := by
      have : (Int.negSucc m : Int) < 0 := Int.negSucc_lt_zero m
      exact_mod_cast this
    have hq : (((Int.negSucc m : Int)) : ℚ) ≠ 0 := ne_of_lt hlt
    simp only [numToString, hq, if_false, hlt, if_true]
    simp only [Rat.num_intCast, Rat.den_intCast, Int.natAbs_negSucc]
    rw [positiveToString_nat (m + 1) (by omega) (by simpa using h)]
    rfl

/-! ## Reading an integer -/

theorem parseFloat_digits (neg : Bool) (c : Char) (cs : List Char)
    (h : ∀ x ∈ c :: cs, x.isDigit = true) :
    parseFloat (String.mk (if neg then '-' :: c :: cs else c :: cs))
      = (if neg then JSNum.neg (JSNum.roundDouble (digitsValue (c :: cs) : ℚ))
          else JSNum.roundDouble (digitsValue (c :: cs) : ℚ)) := by
  obtain ⟨hws, hm, hp, hI⟩ := isDigit_not_special c (h c (List.mem_cons_self _ _))
  have htake : (c :: cs).takeWhile Char.isDigit = c :: cs := List.takeWhile_eq_self_iff.2 h
  have hdrop : (c :: cs).dropWhile Char.isDigit = [] := List.dropWhile_eq_nil_iff.2 h
  have hsr : stripSign (List.dropWhile isJsWhiteSpace (if neg then '-' :: c :: cs else c :: cs))
      = (neg, c :: cs) := by
    cases neg
    · simp [List.dropWhile, hws, stripSign, hm, hp]
    · have : isJsWhiteSpace '-' = false := by decide
      simp [List.dropWhile, this, stripSign]
  have hinf : List.isPrefixOf "Infinity".data (c :: cs) = false := by
    show List.isPrefixOf ('I' :: _) (c :: cs) = false
    simp [List.isPrefixOf, Ne.symm hI]
  have hsc : scaled 10 (digitsValue (c :: cs)) (exponentPart []) = (digitsValue (c :: cs) : ℚ) := by
    have := scaled_nonneg_exponent 10 (digitsValue (c :: cs)) 0
    simpa [exponentPart] using this
  unfold parseFloat
  simp only [hsr, hinf, htake, hdrop]
  simp [hsc]

theorem parseFloat_natRepr (n : Nat) (hn : n < 2 ^ 53) :
    parseFloat (Nat.repr n) = JSNum.fin (n : ℚ) := by
  have hd := toDigits_isDigit n
  have hv := digitsValue_toDigits n
  have hr : Nat.repr n = String.mk (Nat.toDigits 10 n) := rfl
  rw [hr]
  cases hcs : Nat.toDigits 10 n with
  | nil => exact absurd hcs (toDigits_ne_nil n)
  | cons c cs =>
    rw [hcs] at hd hv
    have := parseFloat_digits false c cs hd
    simp only [Bool.false_eq_true, if_false] at this
    rw [this, hv, roundDouble_natCast n hn]

theorem parseFloat_neg_natRepr (n : Nat) (h0 : 1 ≤ n) (hn : n < 2 ^ 53) :
    parseFloat ("-" ++ Nat.repr n) = JSNum.fin (-(n : ℚ)) := by
  have hd := toDigits_isDigit n
  have hv := digitsValue_toDigits n
  have hr : "-" ++ Nat.repr n = String.mk ('-' :: Nat.toDigits 10 n) := rfl
  rw [hr]
  cases hcs : Nat.toDigits 10 n with
  | nil => exact absurd hcs (toDigits_ne_nil n)
  | cons c cs =>
    rw [hcs] at hd hv
    have := parseFloat_digits true c cs hd
    simp only [if_true] at this
    rw [this, hv, roundDouble_natCast n hn]
    have hq : (n : ℚ) ≠ 0 := by
      have : n ≠ 0 := by omega
      exact_mod_cast this
    simp [JSNum.neg, hq]

theorem parseFloat_intRepr (z : Int) (h : z.natAbs < 2 ^ 53) :
    parseFloat (Int.repr z) = JSNum.fin (z : ℚ) := by
  cases z with
  | ofNat m => simpa [Int.repr] using parseFloat_natRepr m (by simpa using h)
  | negSucc m =>
    have := parseFloat_neg_natRepr (m + 1) (by omega) (by simpa using h)
    simp only [Int.repr]
    rw [this, Int.negSucc_eq]
    push_cast
    rfl

/-! ## Entering numbers -/

theorem inputDigit_shown (v d : Nat) (hd : d < 10) (s : CalcState)
    (hw : s.waitingForOperand = false) (hs : s.display = Nat.repr v) :
    inputDigit d s = { s with display := Nat.repr (10 * v + d) } := by
  unfold inputDigit
  simp only [hw, Bool.false_eq_true, if_false, hs, natRepr_eq_zero]
  by_cases h0 : v = 0
  · subst h0
    simp
  · simp only [h0, if_false]
    rw [natRepr_append v d (by omega) hd]

theorem enterDigits_shown (ds : List Nat) (hds : ∀ d ∈ ds, d < 10) :
    ∀ (v : Nat) (s : CalcState), s.waitingForOperand = false → s.display = Nat.repr v →
      enterDigits ds s
        = { s with display := Nat.repr (ds.foldl (fun acc d => 10 * acc + d) v) } := by
  induction ds with
  | nil =>
    intro v s _ hs
    simp [enterDigits, ← hs]
  | cons d ds ih =>
    intro v s hw hs
    have hd : d < 10 := hds d (List.mem_cons_self _ _)
    have step := inputDigit_shown v d hd s hw hs
    have := ih (fun x hx => hds x (List.mem_cons_of_mem _ hx)) (10 * v + d)
      (inputDigit d s) (by rw [step]; exact hw) (by rw [step])
    simp only [enterDigits, List.foldl_cons] at this ⊢
    rw [this, step]

theorem decimalDigits_lt (n : Nat) : ∀ d ∈ decimalDigits n, d < 10 := by
  intro d hd
  simp only [decimalDigits, List.mem_map] at hd
  obtain ⟨c, hc, rfl⟩ := hd
  have := isDigit_toNat c (toDigits_isDigit n c hc)
  omega

theorem decimalDigits_value (n : Nat) :
    (decimalDigits n).foldl (fun acc d => 10 * acc + d) 0 = n := by
  have := digitsValue_toDigits n
  simpa [decimalDigits, digitsValue, List.foldl_map] using this

theorem decimalDigits_ne_nil (n : Nat) : decimalDigits n ≠ [] := by
  simp [decimalDigits, toDigits_ne_nil]

/-- Entering `n` digit by digit, when the display shows `0` or a new operand is awaited,
leaves the decimal notation of `n` on the display and changes nothing else but the awaiting
flag, which is cleared. -/
theorem enterNat_shown (n : Nat) (s : CalcState)
    (h : s.waitingForOperand = true ∨ s.display = "0") :
    enterNat n s = { s with display := Nat.repr n, waitingForOperand := false } := by
  have hlt := decimalDigits_lt n
  have hval := decimalDigits_value n
  unfold enterNat
  cases hds : decimalDigits n with
  | nil => exact absurd hds (decimalDigits_ne_nil n)
  | cons d ds =>
    rw [hds] at hlt hval
    have hd : d < 10 := hlt d (List.mem_cons_self _ _)
    have hrest : ∀ x ∈ ds, x < 10 := fun x hx => hlt x (List.mem_cons_of_mem _ hx)
    simp only [List.foldl_cons, Nat.mul_zero, Nat.zero_add] at hval
    have hfirst : inputDigit d s = { s with display := Nat.repr d, waitingForOperand := false } := by
      by_cases hw : s.waitingForOperand = true
      · simp [inputDigit, hw]
      · have hw0 : s.waitingForOperand = false := by simpa using hw
        have hs : s.display = "0" := by
          rcases h with h | h
          · exact absurd h hw
          · exact h
        have := inputDigit_shown 0 d hd s hw0 hs
        simp only [Nat.mul_zero, Nat.zero_add] at this
        rw [this]
        cases s
        simp_all
    have := enterDigits_shown ds hrest d (inputDigit d s) (by rw [hfirst]) (by rw [hfirst])
    simp only [enterDigits, List.foldl_cons] at this ⊢
    rw [this, hfirst, hval]

theorem enterInt_shown (z : Int) (hz : z.natAbs < 2 ^ 53) (s : CalcState)
    (h : s.waitingForOperand = true ∨ s.display = "0") :
    enterInt z s = { s with display := Int.repr z, waitingForOperand := false } := by
  unfold enterInt
  rw [enterNat_shown z.natAbs s h]
  by_cases hneg : z < 0
  · have hq : (z.natAbs : ℚ) ≠ 0 := by
      have : z.natAbs ≠ 0 := by omega
      exact_mod_cast this
    have hval : ((z.natAbs : ℚ) * (-1 : ℚ)) = ((z : Int) : ℚ) := by
      have h2 : (z.natAbs : ℚ) = -(z : ℚ) := by
        rw [Nat.cast_natAbs, Int.cast_abs, abs_of_neg (by exact_mod_cast hneg)]
      rw [h2]
      ring
    have hmul : JSNum.mul (JSNum.fin (z.natAbs : ℚ)) (JSNum.fin (-1)) = JSNum.fin (z : ℚ) := by
      simp only [JSNum.mul, JSNum.isNaN, JSNum.isInf, JSNum.isZero, JSNum.toRat, hq,
        Bool.or_self, Bool.false_eq_true, if_false, decide_False, hval]
      have h1 : ¬ ((-1 : ℚ) = 0) := by norm_num
      simp only [h1, decide_False, Bool.or_self, Bool.false_eq_true, if_false]
      exact roundDouble_intCast z hz
    simp only [hneg, if_true, toggleSign, parseFloat_natRepr z.natAbs hz, hmul,
      numToString_int z hz]
    simp
  · simp only [hneg, if_false]
    obtain ⟨m, rfl⟩ := Int.eq_ofNat_of_zero_le (by omega : 0 ≤ z)
    rfl

/-! ## Operating on integers -/

theorem symbol_ne (op : ArithOp) : op.symbol ≠ "=" ∧ op.symbol ≠ "" := by
  cases op <;> exact ⟨by decide, by decide⟩

theorem add_int (x y : Int) (hr : (x + y).natAbs < 2 ^ 53) :
    JSNum.add (JSNum.fin (x : ℚ)) (JSNum.fin (y : ℚ)) = JSNum.fin ((x + y : Int) : ℚ) := by
  simp only [JSNum.add, JSNum.isNaN, JSNum.isInf, JSNum.isZero, JSNum.toRat, JSNum.isNegative,
    Bool.or_self, Bool.false_eq_true, if_false]
  by_cases h : x = 0 ∧ y = 0
  · obtain ⟨rfl, rfl⟩ := h
    simp [JSNum.signedZero]
  · have hz : ¬ ((decide ((x : ℚ) = 0) && decide ((y : ℚ) = 0)) = true) := by
      simpa using (by
        intro hx
        have : x = 0 := by exact_mod_cast hx
        intro hy
        exact h ⟨this, by exact_mod_cast hy⟩ : (x : ℚ) = 0 → ¬ (y : ℚ) = 0)
    simp only [hz, if_false]
    have := roundDouble_intCast (x + y) hr
    push_cast at this ⊢
    exact this

theorem sub_int (x y : Int) (hr : (x - y).natAbs < 2 ^ 53) :
    JSNum.sub (JSNum.fin (x : ℚ)) (JSNum.fin (y : ℚ)) = JSNum.fin ((x - y : Int) : ℚ) := by
  unfold JSNum.sub
  by_cases hy : y = 0
  · subst hy
    simp only [Int.cast_zero, JSNum.neg, if_true, Int.sub_zero] at hr ⊢
    simp only [JSNum.add, JSNum.isNaN, JSNum.isInf, JSNum.isZero, JSNum.toRat,
      JSNum.isNegative, Bool.or_self, Bool.false_eq_true, if_false, Bool.and_true]
    by_cases hx : x = 0
    · subst hx
      simp [JSNum.signedZero]
    · have hxq : ¬ ((x : ℚ) = 0) := by exact_mod_cast hx
      simp only [hxq, decide_False, Bool.false_eq_true, if_false, add_zero]
      exact roundDouble_intCast x hr
  · have hyq : ¬ ((y : ℚ) = 0) := by exact_mod_cast hy
    simp only [JSNum.neg, hyq, if_false]
    have hny : (-(y : ℚ)) = ((-y : Int) : ℚ) := by push_cast; rfl
    rw [hny, add_int x (-y) (by simpa [Int.sub_eq_add_neg] using hr)]
    simp [Int.sub_eq_add_neg]

theorem mul_int (x y : Int) (hr : (x * y).natAbs < 2 ^ 53) :
    JSNum.mul (JSNum.fin (x : ℚ)) (JSNum.fin (y : ℚ)) = JSNum.fin ((x * y : Int) : ℚ)
      ∨ (JSNum.mul (JSNum.fin (x : ℚ)) (JSNum.fin (y : ℚ)) = JSNum.negZero ∧ x * y = 0) := by
  simp only [JSNum.mul, JSNum.isNaN, JSNum.isInf, JSNum.isZero, JSNum.toRat, JSNum.isNegative,
    Bool.or_self, Bool.false_eq_true, if_false]
  by_cases h : x = 0 ∨ y = 0
  · have hz : (decide ((x : ℚ) = 0) || decide ((y : ℚ) = 0)) = true := by
      rcases h with h | h <;> simp [h]
    have hxy : x * y = 0 := by
      rcases h with h | h <;> simp [h]
    simp only [hz, if_true, hxy]
    unfold JSNum.signedZero
    split_ifs
    · exact Or.inr ⟨rfl, trivial⟩
    · left
      simp
  · push_neg at h
    have hz : ¬ ((decide ((x : ℚ) = 0) || decide ((y : ℚ) = 0)) = true) := by
      simp [h.1, h.2]
    simp only [hz, if_false]
    left
    have := roundDouble_intCast (x * y) hr
    push_cast at this ⊢
    exact this

/-- On integers whose result stays below `2 ^ 53` in absolute value the operator of the
key computes the exact result, `-0` standing for `0` in a product with a negative factor. -/
theorem applyOperator_int (op : ArithOp) (x y : Int) (hr : (op.eval x y).natAbs < 2 ^ 53) :
    applyOperator op.symbol (JSNum.fin (x : ℚ)) (JSNum.fin (y : ℚ))
        = JSNum.fin ((op.eval x y : Int) : ℚ)
      ∨ (applyOperator op.symbol (JSNum.fin (x : ℚ)) (JSNum.fin (y : ℚ)) = JSNum.negZero
          ∧ op.eval x y = 0) := by
  cases op
  · left
    simp only [applyOperator, ArithOp.symbol, ArithOp.eval, if_true]
    exact add_int x y hr
  · left
    have h : ("-" : String) ≠ "+" := by decide
    simp only [applyOperator, ArithOp.symbol, ArithOp.eval, h, if_false, if_true]
    exact sub_int x y hr
  · have h1 : ("×" : String) ≠ "+" := by decide
    have h2 : ("×" : String) ≠ "-" := by decide
    simp only [applyOperator, ArithOp.symbol, ArithOp.eval, h1, h2, if_false, if_true]
    exact mul_int x y hr

theorem truthy_or_zero (p : JSNum) (x : Int)
    (hp : p = JSNum.fin (x : ℚ) ∨ (p = JSNum.negZero ∧ x = 0)) :
    (if p.truthy then p else JSNum.fin 0) = JSNum.fin (x : ℚ) := by
  rcases hp with rfl | ⟨rfl, rfl⟩
  · by_cases h : x = 0
    · subst h
      simp [JSNum.truthy]
    · simp [JSNum.truthy, h]
  · simp [JSNum.truthy]

theorem numToString_denoted (v : JSNum) (r : Int) (hr : r.natAbs < 2 ^ 53)
    (hv : v = JSNum.fin (r : ℚ) ∨ (v = JSNum.negZero ∧ r = 0)) :
    numToString v = Int.repr r := by
  rcases hv with rfl | ⟨rfl, rfl⟩
  · exact numToString_int r hr
  · rfl

theorem strictEq_denoted (v : JSNum) (r : Int)
    (hv : v = JSNum.fin (r : ℚ) ∨ (v = JSNum.negZero ∧ r = 0)) :
    JSNum.strictEq v (JSNum.fin (r : ℚ)) = true := by
  rcases hv with rfl | ⟨rfl, rfl⟩ <;>
    simp [JSNum.strictEq, JSNum.isNaN, JSNum.isInf, JSNum.toRat]

/-- With no previous operand stored, `performOperation` stores the displayed integer and
seeds the equation. -/
theorem performOperation_first (y : Int) (hy : y.natAbs < 2 ^ 53) (next : String)
    (s : CalcState) (hp : s.prevValue = none) (hd : s.display = Int.repr y) :
    performOperation next s =
      { display := Int.repr y
        equation := Int.repr y ++ " " ++ next
        prevValue := some (JSNum.fin (y : ℚ))
        operator := if next = "=" then none else some next
        waitingForOperand := true } := by
  unfold performOperation
  simp only [hp, hd, parseFloat_intRepr y hy, numToString_int y hy]

/-- With the integer `x` stored and the operator `op` pending, `performOperation` applies
`op` to `x` and the displayed integer. -/
theorem performOperation_pending (x y : Int) (op : ArithOp) (next : String) (s : CalcState)
    (p : JSNum) (hp : s.prevValue = some p)
    (hpx : p = JSNum.fin (x : ℚ) ∨ (p = JSNum.negZero ∧ x = 0))
    (ho : s.operator = some op.symbol) (hd : s.display = Int.repr y)
    (hy : y.natAbs < 2 ^ 53) (hr : (op.eval x y).natAbs < 2 ^ 53) :
    ∃ v : JSNum,
      (v = JSNum.fin ((op.eval x y : Int) : ℚ) ∨ (v = JSNum.negZero ∧ op.eval x y = 0)) ∧
      performOperation next s =
        { display := Int.repr (op.eval x y)
          equation :=
            if next = "=" then s.equation ++ " " ++ Int.repr y ++ " ="
            else Int.repr (op.eval x y) ++ " " ++ next
          prevValue := some v
          operator := if next = "=" then none else some next
          waitingForOperand := true } := by
  refine ⟨applyOperator op.symbol (JSNum.fin (x : ℚ)) (JSNum.fin (y : ℚ)),
    applyOperator_int op x y hr, ?_⟩
  have hs := numToString_denoted _ _ hr (applyOperator_int op x y hr)
  unfold performOperation
  simp only [hp, ho, hd, parseFloat_intRepr y hy, (symbol_ne op).2, if_false,
    truthy_or_zero p x hpx, numToString_int y hy, hs]

/-! ## Binary operations and chaining -/

theorem enterNat_fresh (a : Nat) :
    enterNat a CalcState.fresh = { CalcState.fresh with display := Nat.repr a } := by
  rw [enterNat_shown a _ (Or.inr rfl)]
  rfl

/-- The state after entering `a` and pressing `op`. -/
theorem binary_first (a : Nat) (op : ArithOp) (ha : a < 2 ^ 53) :
    performOperation op.symbol (enterNat a CalcState.fresh)
      = { display := Nat.repr a
          equation := Nat.repr a ++ " " ++ op.symbol
          prevValue := some (JSNum.fin (a : ℚ))
          operator := some op.symbol
          waitingForOperand := true } := by
  rw [enterNat_fresh, performOperation_first (a : Int) (by simpa using ha) op.symbol _ rfl rfl]
  simp [Int.repr, (symbol_ne op).1]

/-- The state after entering `a`, pressing `op`, entering `b` and pressing `=`. -/
theorem binary_final (a b : Nat) (op : ArithOp) (ha : a < 2 ^ 53) (hb : b < 2 ^ 53)
    (hr : (op.eval a b).natAbs < 2 ^ 53) :
    ∃ v : JSNum,
      performOperation "=" (enterNat b (performOperation op.symbol (enterNat a CalcState.fresh)))
        = { display := Int.repr (op.eval a b)
            equation := Nat.repr a ++ " " ++ op.symbol ++ " " ++ Nat.repr b ++ " ="
            prevValue := some v
            operator := none
            waitingForOperand := true } := by
  rw [binary_first a op ha, enterNat_shown b _ (Or.inl rfl)]
  obtain ⟨v, _, hv⟩ := performOperation_pending (a : Int) (b : Int) op "="
    { display := Nat.repr b
      equation := Nat.repr a ++ " " ++ op.symbol
      prevValue := some (JSNum.fin (a : ℚ))
      operator := some op.symbol
      waitingForOperand := false }
    (JSNum.fin ((a : Int) : ℚ)) (by simp) (Or.inl rfl) rfl rfl (by simpa using hb) hr
  refine ⟨v, ?_⟩
  rw [hv]
  simp [Int.repr]

/-- C1, as stated for all non-negative integers, fails: numbers are binary64 floats.  The
keys `9007199254740993 +` store `9007199254740992` and show the equation
`9007199254740992 +`; the keys `94906267 × 94906267 =` show `9007199515875288`, one less
than the product. -/
theorem calculator_binary_operation_counterexample :
    (performOperation ArithOp.plus.symbol (enterNat 9007199254740993 CalcState.fresh)).prevValue
        = some (JSNum.fin 9007199254740992)
      ∧ (performOperation ArithOp.plus.symbol
          (enterNat 9007199254740993 CalcState.fresh)).prevValue
        ≠ some (JSNum.fin ((9007199254740993 : Nat) : ℚ))
      ∧ (performOperation ArithOp.plus.symbol
          (enterNat 9007199254740993 CalcState.fresh)).equation = "9007199254740992 +"
      ∧ (performOperation ArithOp.plus.symbol
          (enterNat 9007199254740993 CalcState.fresh)).equation
        ≠ Nat.repr 9007199254740993 ++ " " ++ ArithOp.plus.symbol
      ∧ (performOperation "=" (enterNat 94906267
          (performOperation ArithOp.times.symbol (enterNat 94906267 CalcState.fresh)))).display
        = "9007199515875288"
      ∧ (performOperation "=" (enterNat 94906267
          (performOperation ArithOp.times.symbol (enterNat 94906267 CalcState.fresh)))).display
        ≠ Int.repr (ArithOp.times.eval (94906267 : Nat) (94906267 : Nat)) := by
  decide!

/-- C1, amended: let `a`, `b` and `a op b` be below `2 ^ 53` in absolute value.  From the
fresh state, entering `a` and pressing `op` stores `a` as previous operand and seeds the
equation with `a op`; entering `b` and pressing `=` then shows the decimal notation of
`a op b`, the equation `a op b =`, and leaves no operator pending.  The case `5 + 3 =` of
the specification is the last four conjuncts. -/
theorem calculator_binary_operation (a b : Nat) (op : ArithOp)
    (ha : a < 2 ^ 53) (hb : b < 2 ^ 53) (hr : (op.eval a b).natAbs < 2 ^ 53) :
    (performOperation op.symbol (enterNat a CalcState.fresh)).prevValue
        = some (JSNum.fin (a : ℚ))
      ∧ (performOperation op.symbol (enterNat a CalcState.fresh)).equation
        = Nat.repr a ++ " " ++ op.symbol
      ∧ (performOperation "="
          (enterNat b (performOperation op.symbol (enterNat a CalcState.fresh)))).display
        = Int.repr (op.eval a b)
      ∧ (performOperation "="
          (enterNat b (performOperation op.symbol (enterNat a CalcState.fresh)))).equation
        = Nat.repr a ++ " " ++ op.symbol ++ " " ++ Nat.repr b ++ " ="
      ∧ (performOperation "="
          (enterNat b (performOperation op.symbol (enterNat a CalcState.fresh)))).operator
        = none
      ∧ (performOperation "+" (inputDigit 5 CalcState.fresh)).prevValue = some (JSNum.fin 5)
      ∧ (performOperation "+" (inputDigit 5 CalcState.fresh)).equation = "5 +"
      ∧ (performOperation "=" (inputDigit 3
          (performOperation "+" (inputDigit 5 CalcState.fresh)))).display = "8"
      ∧ (performOperation "=" (inputDigit 3
          (performOperation "+" (inputDigit 5 CalcState.fresh)))).equation = "5 + 3 =" := by
  obtain ⟨v, hv⟩ := binary_final a b op ha hb hr
  refine ⟨?_, ?_, ?_, ?_, ?_, by decide!, by decide!, by decide!, by decide!⟩
  · rw [binary_first a op ha]
  · rw [binary_first a op ha]
  · rw [hv]
  · rw [hv]
  · rw [hv]

/-- The keys `12 - 30 =` show `-18`. -/
theorem calculator_binary_operation_witness :
    (performOperation "="
        (enterNat 30 (performOperation ArithOp.minus.symbol (enterNat 12 CalcState.fresh)))).display
      = Int.repr (ArithOp.minus.eval (12 : Nat) (30 : Nat)) :=
  (calculator_binary_operation 12 30 ArithOp.minus (by norm_num) (by norm_num)
    (by decide)).2.2.1

theorem afterSecondOperator_eq (a b : Int) (op1 op2 : ArithOp)
    (ha : a.natAbs < 2 ^ 53) (hb : b.natAbs < 2 ^ 53)
    (hr : (op1.eval a b).natAbs < 2 ^ 53) :
    ∃ v : JSNum,
      (v = JSNum.fin ((op1.eval a b : Int) : ℚ) ∨ (v = JSNum.negZero ∧ op1.eval a b = 0)) ∧
      afterSecondOperator a b op1 op2
        = { display := Int.repr (op1.eval a b)
            equation := Int.repr (op1.eval a b) ++ " " ++ op2.symbol
            prevValue := some v
            operator := some op2.symbol
            waitingForOperand := true } := by
  unfold afterSecondOperator
  rw [enterInt_shown a ha _ (Or.inr rfl), performOperation_first a ha op1.symbol _ rfl rfl,
    enterInt_shown b hb _ (Or.inl rfl)]
  obtain ⟨v, hv1, hv2⟩ := performOperation_pending a b op1 op2.symbol
    { display := Int.repr b
      equation := Int.repr a ++ " " ++ op1.symbol
      prevValue := some (JSNum.fin (a : ℚ))
      operator := if op1.symbol = "=" then none else some op1.symbol
      waitingForOperand := false }
    (JSNum.fin (a : ℚ)) rfl (Or.inl rfl) (by simp [(symbol_ne op1).1]) rfl hb hr
  refine ⟨v, hv1, ?_⟩
  rw [hv2]
  simp [(symbol_ne op2).1]

/-- C2, as stated for all integers, fails: numbers are binary64 floats.  The keys
`9007199254740992 + 1 -` show the equation `9007199254740992 -`, and a following `1 =` shows
`9007199254740991`; the keys `99999999999 × 99999999999 =` show `9.9999999998e+21`. -/
theorem calculator_left_to_right_counterexample :
    (afterSecondOperator 9007199254740992 1 ArithOp.plus ArithOp.minus).equation
        = "9007199254740992 -"
      ∧ (afterSecondOperator 9007199254740992 1 ArithOp.plus ArithOp.minus).equation
        ≠ Int.repr (ArithOp.plus.eval 9007199254740992 1) ++ " " ++ ArithOp.minus.symbol
      ∧ (performOperation "=" (enterInt 1
          (afterSecondOperator 9007199254740992 1 ArithOp.plus ArithOp.minus))).display
        = "9007199254740991"
      ∧ (performOperation "=" (enterInt 1
          (afterSecondOperator 9007199254740992 1 ArithOp.plus ArithOp.minus))).display
        ≠ Int.repr (ArithOp.minus.eval (ArithOp.plus.eval 9007199254740992 1) 1)
      ∧ (performOperation "=" (enterInt 99999999999
          (afterSecondOperator 99999999999 1 ArithOp.times ArithOp.times))).display
        = "9.9999999998e+21"
      ∧ (performOperation "=" (enterInt 99999999999
          (afterSecondOperator 99999999999 1 ArithOp.times ArithOp.times))).display
        ≠ Int.repr (ArithOp.times.eval (ArithOp.times.eval 99999999999 1) 99999999999) := by
  decide!

/-- C2, amended: let `a`, `b`, `c`, `a op1 b` and `(a op1 b) op2 c` be below `2 ^ 53` in
absolute value.  Entering `a`, `op1`, `b`, `op2` leaves `a op1 b` on the display and as
previous operand, with the equation `(a op1 b) op2`; entering `c` and pressing `=` then
shows `(a op1 b) op2 c`: operators chain strictly left to right.  The last conjunct is
`2 + 3 × 4 =`, which shows `20`. -/
theorem calculator_left_to_right (a b c : Int) (op1 op2 : ArithOp)
    (ha : a.natAbs < 2 ^ 53) (hb : b.natAbs < 2 ^ 53) (hc : c.natAbs < 2 ^ 53)
    (hr1 : (op1.eval a b).natAbs < 2 ^ 53)
    (hr2 : (op2.eval (op1.eval a b) c).natAbs < 2 ^ 53) :
    (afterSecondOperator a b op1 op2).display = Int.repr (op1.eval a b)
      ∧ (∃ v : JSNum, (afterSecondOperator a b op1 op2).prevValue = some v
          ∧ JSNum.strictEq v (JSNum.fin ((op1.eval a b : Int) : ℚ)) = true)
      ∧ (afterSecondOperator a b op1 op2).equation
        = Int.repr (op1.eval a b) ++ " " ++ op2.symbol
      ∧ (performOperation "=" (enterInt c (afterSecondOperator a b op1 op2))).display
        = Int.repr (op2.eval (op1.eval a b) c)
      ∧ (performOperation "=" (inputDigit 4 (performOperation "×" (inputDigit 3
          (performOperation "+" (inputDigit 2 CalcState.fresh)))))).display = "20" := by
  obtain ⟨v, hv1, hv2⟩ := afterSecondOperator_eq a b op1 op2 ha hb hr1
  refine ⟨by rw [hv2], ⟨v, by rw [hv2], strictEq_denoted v _ hv1⟩, by rw [hv2], ?_, by decide!⟩
  rw [hv2, enterInt_shown c hc _ (Or.inl rfl)]
  obtain ⟨w, _, hw⟩ := performOperation_pending (op1.eval a b) c op2 "="
    { display := Int.repr c
      equation := Int.repr (op1.eval a b) ++ " " ++ op2.symbol
      prevValue := some v
      operator := some op2.symbol
      waitingForOperand := false }
    v rfl hv1 rfl rfl hc hr2
  rw [hw]

/-- The keys `7 - 9 × 6 =`, with the `±` key after the `6`, show `12`. -/
theorem calculator_left_to_right_witness :
    (performOperation "=" (enterInt (-6)
        (afterSecondOperator 7 9 ArithOp.minus ArithOp.times))).display
      = Int.repr (ArithOp.times.eval (ArithOp.minus.eval 7 9) (-6)) :=
  (calculator_left_to_right 7 9 (-6) ArithOp.minus ArithOp.times (by norm_num) (by norm_num)
    (by norm_num) (by decide) (by decide)).2.2.2.1

/-! ## The calculator: clearing and the decimal point -/

/-- C7: `clearAll` gives the fresh state whatever the state it is called in: display `0`,
empty equation, no previous operand, no pending operator, awaiting flag cleared. -/
theorem clearAll_resets (s t : CalcState) :
    clearAll s = CalcState.fresh
      ∧ (clearAll s).display = "0"
      ∧ (clearAll s).equation = ""
      ∧ (clearAll s).prevValue = none
      ∧ (clearAll s).operator = none
      ∧ (clearAll s).waitingForOperand = false
      ∧ clearAll s = clearAll t :=
  ⟨rfl, rfl, rfl, rfl, rfl, rfl, rfl⟩

theorem dotCount_append (a b : String) : dotCount (a ++ b) = dotCount a + dotCount b := by
  simp [dotCount, String.data_append]

theorem dotCount_natRepr (n : Nat) : dotCount (Nat.repr n) = 0 := by
  show List.count '.' (Nat.toDigits 10 n) = 0
  rw [List.count_eq_zero]
  intro h
  exact absurd (toDigits_isDigit n '.' h) (by decide)

theorem dotCount_of_not_contains (s : String) (h : (s.data.contains '.') = false) :
    dotCount s = 0 := by
  unfold dotCount
  rw [List.count_eq_zero]
  intro hm
  have : s.data.contains '.' = true := by simpa using hm
  rw [h] at this
  exact absurd this (by decide)

theorem press_dotCount (k : EntryKey) (s : CalcState) (h : dotCount s.display ≤ 1) :
    dotCount (k.press s).display ≤ 1 := by
  cases k with
  | digit d =>
    simp only [EntryKey.press, inputDigit]
    split
    · simp [dotCount_natRepr]
    · split
      · simp [dotCount_natRepr]
      · simp only [dotCount_append, dotCount_natRepr]
        exact h
  | dot =>
    simp only [EntryKey.press, inputDot]
    split
    · show dotCount "0." ≤ 1
      decide
    · split
      · rename_i _ hc
        have hc0 : s.display.data.contains '.' = false := by simpa using hc
        simp only [dotCount_append, dotCount_of_not_contains _ hc0]
        decide
      · exact h
  | clearEntry =>
    show dotCount "0" ≤ 1
    decide
  | clearAllKey =>
    show dotCount "0" ≤ 1
    decide

theorem pressAll_dotCount (ks : List EntryKey) :
    ∀ s : CalcState, dotCount s.display ≤ 1 → dotCount (pressAll ks s).display ≤ 1 := by
  induction ks with
  | nil => intro s h; exact h
  | cons k ks ih =>
    intro s h
    exact ih (k.press s) (press_dotCount k s h)

/-- C8: after any sequence of digit, dot, `C` and `AC` keys from the fresh state the display
holds at most one decimal point; the dot key leaves a state that is not awaiting an operand
and whose display already has a point exactly as it is; and `1`, `.`, `5`, `.` ends with the
display `1.5`. -/
theorem dot_at_most_once :
    (∀ ks : List EntryKey, dotCount (pressAll ks CalcState.fresh).display ≤ 1)
      ∧ (∀ s : CalcState, s.waitingForOperand = false → s.display.data.contains '.' = true →
          inputDot s = s)
      ∧ (inputDigit 5 (inputDot (inputDigit 1 CalcState.fresh))).display = "1.5"
      ∧ (inputDot (inputDigit 5 (inputDot (inputDigit 1 CalcState.fresh)))).display = "1.5" := by
  refine ⟨fun ks => pressAll_dotCount ks _ (by decide), ?_, by decide, by decide⟩
  intro s hw hc
  unfold inputDot
  rw [hw, hc]
  rfl

/-- The dot key on the display `1.5` changes nothing. -/
theorem dot_at_most_once_witness :
    inputDot { display := "1.5", equation := "", prevValue := none, operator := none,
               waitingForOperand := false }
      = { display := "1.5", equation := "", prevValue := none, operator := none,
          waitingForOperand := false } :=
  dot_at_most_once.2.1 _ rfl (by decide)

/-! ## The chat panel: replies, submission, copying, download -/

/-- C3, as stated, fails: a text with `build` and `deploy` that also holds `hi` (here inside
`this`) is answered with the greeting, not with the `build` reply. -/
theorem build_deploy_counterexample :
    includes (asciiLowerCase "Build and deploy this") "build" = true
      ∧ includes (asciiLowerCase "Build and deploy this") "deploy" = true
      ∧ (generateMockResponse asciiLowerCase "Build and deploy this" false).1 = helloResponse
      ∧ (generateMockResponse asciiLowerCase "Build and deploy this" false).1
          ≠ buildResponse := by
  decide

/-- C3, amended: a text that contains `build` and `deploy` and neither `hello` nor `hi`,
case-insensitively, is answered with the `build` reply. -/
theorem build_wins_over_deploy (toLowerCase : String → String) (query : String)
    (showCalculator : Bool)
    (hbuild : includes (toLowerCase query) "build" = true)
    (_hdeploy : includes (toLowerCase query) "deploy" = true)
    (hhello : includes (toLowerCase query) "hello" = false)
    (hhi : includes (toLowerCase query) "hi" = false) :
    (generateMockResponse toLowerCase query showCalculator).1 = buildResponse := by
  simp [generateMockResponse, hbuild, hhello, hhi]

/-- The text `Build and deploy` is answered with the `build` reply. -/
theorem build_wins_over_deploy_witness :
    (generateMockResponse asciiLowerCase "Build and deploy" false).1 = buildResponse :=
  build_wins_over_deploy asciiLowerCase "Build and deploy" false
    (by decide) (by decide) (by decide) (by decide)

/-- C4: when the input is not empty after trimming, `handleSubmit` appends one user message
with the input as content, clears the input field, sets the typing flag and starts one
timer; that timer's callback, in whatever state it runs, appends one assistant message
with the reply to the input and clears the typing flag. -/
theorem submit_appends_user_then_assistant (toLowerCase : String → String) (s : AppState)
    (h : jsTrim s.input ≠ "") :
    (handleSubmit s).messages = s.messages ++ [{ role := Role.user, content := s.input }]
      ∧ (handleSubmit s).input = ""
      ∧ (handleSubmit s).isTyping = true
      ∧ (handleSubmit s).timers = s.timers ++ [Timer.reply s.input]
      ∧ (∀ t : AppState,
          ((Timer.reply s.input).run toLowerCase t).messages
              = t.messages ++
                [{ role := Role.assistant
                   content := (generateMockResponse toLowerCase s.input t.showCalculator).1 }]
            ∧ ((Timer.reply s.input).run toLowerCase t).isTyping = false)
      ∧ (fireTimer toLowerCase s.timers.length (handleSubmit s)).messages
          = s.messages ++
            [{ role := Role.user, content := s.input },
             { role := Role.assistant
               content := (generateMockResponse toLowerCase s.input s.showCalculator).1 }]
      ∧ (fireTimer toLowerCase s.timers.length (handleSubmit s)).isTyping = false
      ∧ (fireTimer toLowerCase s.timers.length (handleSubmit s)).timers = s.timers := by
  have hs : handleSubmit s =
      { s with
        messages := s.messages ++ [{ role := Role.user, content := s.input }]
        input := ""
        isTyping := true
        timers := s.timers ++ [Timer.reply s.input] } := by
    simp [handleSubmit, h]
  have hget : (s.timers ++ [Timer.reply s.input]).get? s.timers.length
      = some (Timer.reply s.input) := by
    simp
  have herase : (s.timers ++ [Timer.reply s.input]).eraseIdx s.timers.length = s.timers := by
    rw [List.eraseIdx_append_of_length_le (Nat.le_refl _)]
    simp
  refine ⟨by rw [hs], by rw [hs], by rw [hs], by rw [hs], fun t => ⟨rfl, rfl⟩, ?_, ?_, ?_⟩
  · rw [hs]
    simp only [fireTimer, hget, herase, Timer.run]
    simp
  · rw [hs]
    simp only [fireTimer, hget, herase, Timer.run]
  · rw [hs]
    simp only [fireTimer, hget, herase, Timer.run]

/-- Submitting ` build ` on the initial state. -/
theorem submit_appends_user_then_assistant_witness :
    (handleSubmit { AppState.initial with input := " build " }).messages
      = initialMessages ++ [{ role := Role.user, content := " build " }] :=
  (submit_appends_user_then_assistant asciiLowerCase
    { AppState.initial with input := " build " } (by decide)).1

theorem jsTrim_whitespace (s : String) (h : ∀ c ∈ s.data, isJsWhiteSpace c = true) :
    jsTrim s = "" := by
  have : s.data.dropWhile isJsWhiteSpace = [] := List.dropWhile_eq_nil_iff.2 h
  simp [jsTrim, this]

/-- C5: when the input holds nothing but white space, or nothing at all, `handleSubmit`
returns the state unchanged: messages, input field, typing flag and pending timers. -/
theorem submit_whitespace_noop (s : AppState)
    (h : ∀ c ∈ s.input.data, isJsWhiteSpace c = true) :
    handleSubmit s = s := by
  simp [handleSubmit, jsTrim_whitespace s.input h]

/-- Submitting a blank followed by a tab and a line feed on the initial state. -/
theorem submit_whitespace_noop_witness :
    handleSubmit { AppState.initial with input := " \t\n" }
      = { AppState.initial with input := " \t\n" } :=
  submit_whitespace_noop { AppState.initial with input := " \t\n" } (by decide)

/-- C6 fails on the code.  Block `A` is copied, then block `B` before the timer of `A` has
fired.  When the timer of `A` fires, `B` is no longer marked although its own timer is
still pending; when the timer of `B` fires, no timer is left and `A` is marked again. -/
theorem copy_mark_stale_closure :
    (handleCopyCode "y" "B" (handleCopyCode "x" "A" AppState.initial)).copiedSnippets.marked "B"
        = true
      ∧ (fireTimer asciiLowerCase 0
          (handleCopyCode "y" "B" (handleCopyCode "x" "A" AppState.initial))).timers
        = [Timer.uncopy [("A", true)] "B"]
      ∧ (fireTimer asciiLowerCase 0
          (handleCopyCode "y" "B" (handleCopyCode "x" "A" AppState.initial))).copiedSnippets.marked
            "B" = false
      ∧ (fireTimer asciiLowerCase 0 (fireTimer asciiLowerCase 0
          (handleCopyCode "y" "B" (handleCopyCode "x" "A" AppState.initial)))).timers = []
      ∧ (fireTimer asciiLowerCase 0 (fireTimer asciiLowerCase 0
          (handleCopyCode "y" "B" (handleCopyCode "x" "A" AppState.initial)))).copiedSnippets.marked
            "A" = true := by
  decide

theorem calculatorResponse_ne :
    calculatorResponse ≠ helloResponse ∧ calculatorResponse ≠ buildResponse
      ∧ calculatorResponse ≠ deployResponse ∧ calculatorResponse ≠ shipResponse
      ∧ calculatorResponse ≠ reactResponse ∧ calculatorResponse ≠ tailwindResponse
      ∧ calculatorResponse ≠ fallbackResponse := by
  decide

/-- C9: a text whose lower-cased form contains `calculator` and none of the seven keywords
tested before it is answered with the calculator reply and the widget is visible afterwards,
whatever its visibility before; the calculator reply is returned for exactly these texts.
When `generateMockResponse` returns the calculator reply the widget is visible afterwards;
when it returns another reply the visibility is what it was; and the timer callback stores
exactly that visibility. -/
theorem calculator_keyword_shows_widget (toLowerCase : String → String) (query : String)
    (showCalculator : Bool) :
    (includes (toLowerCase query) "calculator" = true →
        includes (toLowerCase query) "hello" = false →
        includes (toLowerCase query) "hi" = false →
        includes (toLowerCase query) "build" = false →
        includes (toLowerCase query) "deploy" = false →
        includes (toLowerCase query) "ship" = false →
        includes (toLowerCase query) "react" = false →
        includes (toLowerCase query) "tailwind" = false →
        generateMockResponse toLowerCase query showCalculator = (calculatorResponse, true)
          ∧ ∀ t : AppState, ((Timer.reply query).run toLowerCase t).showCalculator = true)
      ∧ ((generateMockResponse toLowerCase query showCalculator).1 = calculatorResponse ↔
          (includes (toLowerCase query) "calculator" = true
            ∧ includes (toLowerCase query) "hello" = false
            ∧ includes (toLowerCase query) "hi" = false
            ∧ includes (toLowerCase query) "build" = false
            ∧ includes (toLowerCase query) "deploy" = false
            ∧ includes (toLowerCase query) "ship" = false
            ∧ includes (toLowerCase query) "react" = false
            ∧ includes (toLowerCase query) "tailwind" = false))
      ∧ ((generateMockResponse toLowerCase query showCalculator).1 = calculatorResponse →
        (generateMockResponse toLowerCase query showCalculator).2 = true)
      ∧ ((generateMockResponse toLowerCase query showCalculator).1 ≠ calculatorResponse →
        (generateMockResponse toLowerCase query showCalculator).2 = showCalculator)
      ∧ (∀ t : AppState, ((Timer.reply query).run toLowerCase t).showCalculator
          = (generateMockResponse toLowerCase query t.showCalculator).2) := by
  obtain ⟨h1, h2, h3, h4, h5, h6, h7⟩ := calculatorResponse_ne
  have hmatch : ∀ b : Bool, includes (toLowerCase query) "calculator" = true →
      includes (toLowerCase query) "hello" = false →
      includes (toLowerCase query) "hi" = false →
      includes (toLowerCase query) "build" = false →
      includes (toLowerCase query) "deploy" = false →
      includes (toLowerCase query) "ship" = false →
      includes (toLowerCase query) "react" = false →
      includes (toLowerCase query) "tailwind" = false →
      generateMockResponse toLowerCase query b = (calculatorResponse, true) := by
    intro b g7 g0 g0b g1 g2 g3 g4 g5
    simp [generateMockResponse, g0, g0b, g1, g2, g3, g4, g5, g7]
  refine ⟨?_, ?_, ?_, ?_, fun t => rfl⟩
  · intro g7 g0 g0b g1 g2 g3 g4 g5
    refine ⟨hmatch _ g7 g0 g0b g1 g2 g3 g4 g5, fun t => ?_⟩
    show (generateMockResponse toLowerCase query t.showCalculator).2 = true
    rw [hmatch _ g7 g0 g0b g1 g2 g3 g4 g5]
  · constructor
    · unfold generateMockResponse
      split_ifs with g0 g1 g2 g3 g4 g5 g6
      · exact fun h => absurd h.symm h1
      · exact fun h => absurd h.symm h2
      · exact fun h => absurd h.symm h3
      · exact fun h => absurd h.symm h4
      · exact fun h => absurd h.symm h5
      · exact fun h => absurd h.symm h6
      · intro _
        simp only [Bool.or_eq_true, not_or, Bool.not_eq_true] at g0
        simp only [Bool.not_eq_true] at g1 g2 g3 g4 g5
        exact ⟨g6, g0.1, g0.2, g1, g2, g3, g4, g5⟩
      · exact fun h => absurd h.symm h7
    · rintro ⟨g7, g0, g0b, g1, g2, g3, g4, g5⟩
      rw [hmatch _ g7 g0 g0b g1 g2 g3 g4 g5]
  · unfold generateMockResponse
    split_ifs
    · exact fun h => absurd h.symm h1
    · exact fun h => absurd h.symm h2
    · exact fun h => absurd h.symm h3
    · exact fun h => absurd h.symm h4
    · exact fun h => absurd h.symm h5
    · exact fun h => absurd h.symm h6
    · exact fun _ => rfl
    · exact fun h => absurd h.symm h7
  · unfold generateMockResponse
    split_ifs
    · exact fun _ => rfl
    · exact fun _ => rfl
    · exact fun _ => rfl
    · exact fun _ => rfl
    · exact fun _ => rfl
    · exact fun _ => rfl
    · exact fun h => absurd rfl h
    · exact fun _ => rfl

/-- The text `open the Calculator` gets the calculator reply and makes the hidden widget
visible. -/
theorem calculator_keyword_shows_widget_witness :
    generateMockResponse asciiLowerCase "open the Calculator" false
      = (calculatorResponse, true) :=
  ((calculator_keyword_shows_widget asciiLowerCase "open the Calculator" false).1
    (by decide) (by decide) (by decide) (by decide) (by decide) (by decide) (by decide)
    (by decide)).1

/-- C10: the downloaded file is named `code-snippet.jsx` for the tag `jsx`, `code-snippet.js`
for the tag `javascript`, and `code-snippet.` followed by the tag itself for every other
tag, `python` among them; the name does not depend on the code text. -/
theorem download_file_name (code code2 language : String) :
    (handleDownloadCode code "jsx").filename = "code-snippet.jsx"
      ∧ (handleDownloadCode code "javascript").filename = "code-snippet.js"
      ∧ (language ≠ "jsx" → language ≠ "javascript" →
          (handleDownloadCode code language).filename = "code-snippet." ++ language)
      ∧ (handleDownloadCode code "python").filename = "code-snippet.python"
      ∧ (handleDownloadCode code language).filename
          = (handleDownloadCode code2 language).filename := by
  refine ⟨rfl, rfl, ?_, rfl, rfl⟩
  intro h1 h2
  simp [handleDownloadCode, h1, h2]

/-- The tag `css` names the file `code-snippet.css`. -/
theorem download_file_name_witness :
    (handleDownloadCode "a" "css").filename = "code-snippet." ++ "css" :=
  (download_file_name "a" "b" "css").2.2.1 (by decide) (by decide)

/-! ## The unreachable `ship` reply -/

theorem includesChars_ship_hi :
    ∀ l : List Char, includesChars "ship".data l = true → includesChars "hi".data l = true := by
  intro l
  induction l with
  | nil => intro h; revert h; decide
  | cons c cs ih =>
    intro h
    simp only [includesChars, Bool.or_eq_true] at h ⊢
    rcases h with h | h
    · right
      have hp : List.isPrefixOf ['s', 'h', 'i', 'p'] (c :: cs) = true := h
      match cs, hp with
      | c1 :: c2 :: c3 :: rest, hp =>
        simp only [List.isPrefixOf, Bool.and_eq_true, beq_iff_eq] at hp
        obtain ⟨_, h1, h2, _⟩ := hp
        subst h1 h2
        show includesChars ['h', 'i'] ('h' :: 'i' :: c3 :: rest) = true
        simp [includesChars, List.isPrefixOf]
      | [], hp => simp [List.isPrefixOf] at hp
      | [_], hp => simp [List.isPrefixOf] at hp
      | [_, _], hp => simp [List.isPrefixOf] at hp
    · exact Or.inr (ih h)

theorem includes_ship_hi (s : String) (h : includes s "ship" = true) :
    includes s "hi" = true :=
  includesChars_ship_hi s.data h

theorem shipResponse_ne :
    helloResponse ≠ shipResponse ∧ buildResponse ≠ shipResponse
      ∧ deployResponse ≠ shipResponse ∧ reactResponse ≠ shipResponse
      ∧ tailwindResponse ≠ shipResponse ∧ calculatorResponse ≠ shipResponse
      ∧ fallbackResponse ≠ shipResponse := by
  decide

/-- C11: `generateMockResponse` never returns the `ship` reply: a text whose lower-cased form
contains `ship` also contains `hi`, and is therefore answered with the greeting, which is
tested first. -/
theorem ship_reply_unreachable (toLowerCase : String → String) (query : String)
    (showCalculator : Bool) :
    (generateMockResponse toLowerCase query showCalculator).1 ≠ shipResponse
      ∧ (includes (toLowerCase query) "ship" = true → includes (toLowerCase query) "hi" = true)
      ∧ (includes (toLowerCase query) "ship" = true →
          (generateMockResponse toLowerCase query showCalculator).1 = helloResponse) := by
  obtain ⟨h1, h2, h3, h4, h5, h6, h7⟩ := shipResponse_ne
  refine ⟨?_, includes_ship_hi _, ?_⟩
  · unfold generateMockResponse
    split_ifs with g0 g1 g2 g3 g4 g5 g6
    · exact h1
    · exact h2
    · exact h3
    · have := includes_ship_hi _ g3
      simp [this] at g0
    · exact h4
    · exact h5
    · exact h6
    · exact h7
  · intro hs
    have := includes_ship_hi _ hs
    simp [generateMockResponse, this]

/-- The text `Ship it` contains `ship`, hence `hi`. -/
theorem ship_reply_unreachable_witness :
    includes (asciiLowerCase "Ship it") "hi" = true :=
  (ship_reply_unreachable asciiLowerCase "Ship it" false).2.1 (by decide)

/-! ## Operating on a result -/

theorem performOperation_idle (nextOperator : String) (s : CalcState)
    (hp : s.prevValue ≠ none) (ho : s.operator = none) :
    performOperation nextOperator s
      = { s with
          waitingForOperand := true
          operator := if nextOperator = "=" then none else some nextOperator } := by
  unfold performOperation
  cases hv : s.prevValue with
  | none => exact absurd hv hp
  | some v =>
    simp only [ho]
    rw [hv]

/-- C12: in a state with a stored previous operand and no pending operator,
`performOperation` changes only the awaiting flag and the pending operator; display,
equation and previous operand stay.  So after `5 + 3 =` the keys `2 + 4 =` show `12`: the
`2` is not taken as left operand. -/
theorem operate_after_result :
    (∀ (nextOperator : String) (s : CalcState), s.prevValue ≠ none → s.operator = none →
        performOperation nextOperator s
          = { display := s.display
              equation := s.equation
              prevValue := s.prevValue
              operator := if nextOperator = "=" then none else some nextOperator
              waitingForOperand := true })
      ∧ (performOperation "=" (inputDigit 3
          (performOperation "+" (inputDigit 5 CalcState.fresh)))).prevValue = some (JSNum.fin 8)
      ∧ (performOperation "=" (inputDigit 3
          (performOperation "+" (inputDigit 5 CalcState.fresh)))).operator = none
      ∧ (performOperation "=" (inputDigit 4 (performOperation "+" (inputDigit 2
          (performOperation "=" (inputDigit 3
            (performOperation "+" (inputDigit 5 CalcState.fresh)))))))).display = "12" := by
  exact ⟨fun op s hp ho => performOperation_idle op s hp ho, by decide!, by decide!,
    by decide!⟩

/-- After `5 + 3 =` and the digit `2`, the key `+` keeps display, equation and previous
operand. -/
theorem operate_after_result_witness :
    performOperation "+"
        { display := "2", equation := "5 + 3 =", prevValue := some (JSNum.fin 8),
          operator := none, waitingForOperand := false }
      = { display := "2", equation := "5 + 3 =", prevValue := some (JSNum.fin 8),
          operator := some "+", waitingForOperand := true } :=
  operate_after_result.1 "+" _ (by simp) rfl

/-! ## No operator without a previous operand -/

theorem performOperation_prevValue (nextOperator : String) (s : CalcState) :
    (performOperation nextOperator s).prevValue ≠ none := by
  unfold performOperation
  cases hv : s.prevValue with
  | none => simp
  | some v =>
    cases ho : s.operator with
    | none => simp [hv]
    | some o =>
      by_cases he : o = ""
      · simp [he, hv]
      · simp [he]

theorem press_keeps_operand (k : CalcKey) (s : CalcState)
    (h : s.operator ≠ none → s.prevValue ≠ none) :
    (k.press s).operator ≠ none → (k.press s).prevValue ≠ none := by
  cases k with
  | digit d =>
    simp only [CalcKey.press, inputDigit]
    split
    · exact h
    · exact h
  | dot =>
    simp only [CalcKey.press, inputDot]
    split
    · exact h
    · split
      · exact h
      · exact h
  | sign =>
    intro ho
    simp only [CalcKey.press, toggleSign] at ho ⊢
    split
    · simp
    · exact h ho
  | percent => exact h
  | operate op => exact fun _ => performOperation_prevValue op s
  | allClear => exact fun ho => absurd rfl ho
  | entryClear => exact h

theorem pressKeys_keeps_operand (ks : List CalcKey) :
    ∀ s : CalcState, (s.operator ≠ none → s.prevValue ≠ none) →
      (pressKeys ks s).operator ≠ none → (pressKeys ks s).prevValue ≠ none := by
  induction ks with
  | nil => intro s h; exact h
  | cons k ks ih =>
    intro s h
    exact ih (k.press s) (press_keeps_operand k s h)

/-- C13: in every state reached from the fresh state by digit, dot, `±`, percent, operator,
`AC` and `C` keys, a pending operator comes with a stored previous operand. -/
theorem operator_implies_operand (ks : List CalcKey)
    (h : (pressKeys ks CalcState.fresh).operator ≠ none) :
    (pressKeys ks CalcState.fresh).prevValue ≠ none :=
  pressKeys_keeps_operand ks CalcState.fresh (fun ho => absurd rfl ho) h

/-- After `5` and `+` the operator is pending and the operand is stored. -/
theorem operator_implies_operand_witness :
    (pressKeys [CalcKey.digit 5, CalcKey.operate "+"] CalcState.fresh).operator ≠ none
      ∧ (pressKeys [CalcKey.digit 5, CalcKey.operate "+"] CalcState.fresh).prevValue ≠ none :=
  ⟨by decide,
    operator_implies_operand [CalcKey.digit 5, CalcKey.operate "+"] (by decide)⟩

end BuilderSmartAI
